import Mathlib

/-!
# Verification of the autotable backend's authorization and query core

Shallow embedding of `backend/app/main.py` (permission resolver, member
management, bulk permission replace, role-default propagation) and
`backend/app/services.py` (filter/sort engine, widget aggregation),
with theorems settling the specification claims.

Conventions of the embedding:
* SQLAlchemy rows become Lean structures; the database session becomes an
  explicit `DB` record of row lists.  `db.scalar(select(...))` (first match)
  becomes `List.find?`; row insertion appends; row deletion filters.
* `raise HTTPException` becomes `Except.error` carrying status and detail.
* Audit-log writes (`write_audit_log`, `_audit_cross_tenant_access`) are writes
  to the external audit sink, declared out of scope by the specification; the
  embedding drops them since no claim mentions audit rows.
* Python numbers are modelled as `ℚ`.  Python `bool` is a subtype of `int`
  (`isinstance(True, int)` holds), which the embedding mirrors wherever the
  source checks `isinstance(value, (int, float))`.
-/

namespace Autotable

/-! ## Identity and permission rows (`backend/app/models.py`) -/

/-- `MembershipModel`: (user, tenant) with coarse `role` and fine `role_key`.
`(user_id, tenant_id)` carries a uniqueness constraint in the store. -/
structure Membership where
  userId : String
  tenantId : String
  role : String
  roleKey : String
  deriving Repr, DecidableEq

/-- `TenantRoleModel`: tenant-scoped role with capability flags.
`(tenant_id, key)` is unique in the store. -/
structure TenantRole where
  tenantId : String
  key : String
  name : String
  canManageMembers : Bool
  canManagePermissions : Bool
  defaultTableCanRead : Bool
  defaultTableCanWrite : Bool
  deriving Repr, DecidableEq

/-- `TableModel` (columns relevant to authorization: id and tenant scope). -/
structure Table where
  id : String
  tenantId : String
  deriving Repr, DecidableEq

/-- `ViewModel` (columns relevant to authorization). -/
structure View where
  id : String
  tenantId : String
  tableId : String
  deriving Repr, DecidableEq

/-- `TablePermissionModel`: per-(tenant, table, user) row, unique on that
triple; `can_read`/`can_write` plus the six button flags (store defaults:
`can_read=True`, `can_write=False`, all button flags `True`). -/
structure TablePermission where
  tenantId : String
  tableId : String
  userId : String
  canRead : Bool
  canWrite : Bool
  canCreateRecord : Bool := true
  canDeleteRecord : Bool := true
  canImportRecords : Bool := true
  canExportRecords : Bool := true
  canManageFilters : Bool := true
  canManageSorts : Bool := true
  deriving Repr, DecidableEq

/-- `ViewPermissionModel`: per-(tenant, view, user) row, unique on the triple. -/
structure ViewPermission where
  tenantId : String
  viewId : String
  userId : String
  canRead : Bool
  canWrite : Bool
  deriving Repr, DecidableEq

/-- JSON-ish record values (`RecordValueModel.value_json`).  Dicts are omitted:
no field type validates to a dict, so stored record values never hold one. -/
inductive Value where
  | null : Value
  | bool (b : Bool) : Value
  | num (q : ℚ) : Value
  | str (s : String) : Value
  | list (vs : List Value) : Value
  deriving Repr

mutual

/-- Decidable equality for `Value` (the nested `list` constructor prevents
automatic derivation). -/
def Value.decEq : (a b : Value) → Decidable (a = b)
  | .null, .null => .isTrue rfl
  | .null, .bool _ => .isFalse nofun
  | .null, .num _ => .isFalse nofun
  | .null, .str _ => .isFalse nofun
  | .null, .list _ => .isFalse nofun
  | .bool _, .null => .isFalse nofun
  | .bool a, .bool b =>
    if h : a = b then .isTrue (h ▸ rfl) else .isFalse (fun hc => h (Value.bool.inj hc))
  | .bool _, .num _ => .isFalse nofun
  | .bool _, .str _ => .isFalse nofun
  | .bool _, .list _ => .isFalse nofun
  | .num _, .null => .isFalse nofun
  | .num _, .bool _ => .isFalse nofun
  | .num a, .num b =>
    if h : a = b then .isTrue (h ▸ rfl) else .isFalse (fun hc => h (Value.num.inj hc))
  | .num _, .str _ => .isFalse nofun
  | .num _, .list _ => .isFalse nofun
  | .str _, .null => .isFalse nofun
  | .str _, .bool _ => .isFalse nofun
  | .str _, .num _ => .isFalse nofun
  | .str a, .str b =>
    if h : a = b then .isTrue (h ▸ rfl) else .isFalse (fun hc => h (Value.str.inj hc))
  | .str _, .list _ => .isFalse nofun
  | .list _, .null => .isFalse nofun
  | .list _, .bool _ => .isFalse nofun
  | .list _, .num _ => .isFalse nofun
  | .list _, .str _ => .isFalse nofun
  | .list as, .list bs =>
    match Value.decEqList as bs with
    | .isTrue h => .isTrue (h ▸ rfl)
    | .isFalse h => .isFalse (fun hc => h (Value.list.inj hc))

/-- Decidable equality for lists of `Value`. -/
def Value.decEqList : (as bs : List Value) → Decidable (as = bs)
  | [], [] => .isTrue rfl
  | [], _ :: _ => .isFalse nofun
  | _ :: _, [] => .isFalse nofun
  | a :: as, b :: bs =>
    match Value.decEq a b with
    | .isFalse h => .isFalse (fun hc => h (by cases hc; rfl))
    | .isTrue h1 =>
      match Value.decEqList as bs with
      | .isTrue h2 => .isTrue (by rw [h1, h2])
      | .isFalse h2 => .isFalse (fun hc => h2 (by cases hc; rfl))

end

instance : DecidableEq Value := Value.decEq

/-- `RecordModel` (id, tenant and table scope, creation order).
`createdAt` stands for the `created_at` timestamp, as a comparable integer. -/
structure RecordRow where
  id : String
  tenantId : String
  tableId : String
  createdAt : Int := 0
  deriving Repr, DecidableEq

/-- `RecordValueModel`: sparse (record, field) → value row. -/
structure RecordValue where
  recordId : String
  fieldId : String
  value : Value
  deriving Repr, DecidableEq

/-- `FieldModel` (columns consulted by the query engine: id and semantic type). -/
structure Field where
  id : String
  type : String
  deriving Repr, DecidableEq

/-- The relational store: one list per table of rows. -/
structure DB where
  memberships : List Membership := []
  roles : List TenantRole := []
  tables : List Table := []
  views : List View := []
  tablePerms : List TablePermission := []
  viewPerms : List ViewPermission := []
  records : List RecordRow := []
  recordValues : List RecordValue := []
  deriving Repr, DecidableEq

/-- `HTTPException(status_code, detail)`. -/
structure HErr where
  status : Nat
  detail : String
  deriving Repr, DecidableEq

/-! ## Permission resolver (`backend/app/main.py`) -/

/-- `_get_membership`: first membership row for (user, tenant). -/
def getMembership (db : DB) (userId tenantId : String) : Option Membership :=
  db.memberships.find? (fun m => m.userId == userId && m.tenantId == tenantId)

/-- `_get_membership_role`: the membership's coarse role, if any. -/
def getMembershipRole (db : DB) (userId tenantId : String) : Option String :=
  (getMembership db userId tenantId).map (·.role)

/-- `_ensure_table_exists`: resolve the table inside the tenant or raise 404.
(The cross-tenant probe writes only to the external audit sink and returns the
same 404 either way; the embedding keeps just the decision.) -/
def ensureTableExists (db : DB) (tableId tenantId : String) : Except HErr Table :=
  match db.tables.find? (fun t => t.id == tableId && t.tenantId == tenantId) with
  | some t => .ok t
  | none => .error ⟨404, "数据表不存在"⟩

/-- `_ensure_view_exists` (no expected table id): resolve the view in the
tenant or raise 404. -/
def ensureViewExists (db : DB) (viewId tenantId : String) : Except HErr View :=
  match db.views.find? (fun v => v.id == viewId && v.tenantId == tenantId) with
  | some v => .ok v
  | none => .error ⟨404, "视图不存在"⟩

/-- First table-permission row for (tenant, table, user); the triple is unique
in the store. -/
def findTablePerm (db : DB) (tenantId tableId userId : String) : Option TablePermission :=
  db.tablePerms.find? (fun p =>
    p.tenantId == tenantId && p.tableId == tableId && p.userId == userId)

/-- `_ensure_table_access`: existence check first, then owner bypass, then the
permission-row lookup (`write` needs `can_write`; `read` needs
`can_read or can_write`); denial is 403. -/
def ensureTableAccess (db : DB) (tableId tenantId userId access : String) :
    Except HErr Table :=
  match ensureTableExists db tableId tenantId with
  | .error e => .error e
  | .ok table =>
    if getMembershipRole db userId tenantId = some "owner" then .ok table
    else
      let permission := findTablePerm db tenantId tableId userId
      let hasAccess := match permission with
        | some p => if access == "write" then p.canWrite else (p.canRead || p.canWrite)
        | none => false
      if hasAccess then .ok table
      else .error ⟨403, "无该表访问权限"⟩

/-- `getattr(permission, button_key, True)`: dynamic button-flag lookup with
default `True` for unknown attribute names. -/
def buttonFlag (p : TablePermission) (key : String) : Bool :=
  if key == "can_create_record" then p.canCreateRecord
  else if key == "can_delete_record" then p.canDeleteRecord
  else if key == "can_import_records" then p.canImportRecords
  else if key == "can_export_records" then p.canExportRecords
  else if key == "can_manage_filters" then p.canManageFilters
  else if key == "can_manage_sorts" then p.canManageSorts
  else true

/-- `_ensure_table_button_permission`: owner bypass first; then a base
permission row must exist (403 otherwise); then the named flag must be set. -/
def ensureTableButtonPermission (db : DB) (tableId tenantId userId buttonKey : String) :
    Except HErr Unit :=
  if getMembershipRole db userId tenantId = some "owner" then .ok ()
  else
    match findTablePerm db tenantId tableId userId with
    | none => .error ⟨403, "缺少表格按钮权限配置"⟩
    | some permission =>
      if buttonFlag permission buttonKey then .ok ()
      else .error ⟨403, "无该表按钮操作权限"⟩

/-- `_ensure_manage_members_allowed`: membership required; owner allowed;
otherwise the member's tenant role must carry `can_manage_members`. -/
def ensureManageMembersAllowed (db : DB) (userId tenantId : String) :
    Except HErr Unit :=
  match getMembership db userId tenantId with
  | none => .error ⟨403, "当前租户无成员权限"⟩
  | some membership =>
    if membership.role == "owner" then .ok ()
    else
      match db.roles.find? (fun r => r.tenantId == tenantId && r.key == membership.roleKey) with
      | some role => if role.canManageMembers then .ok () else .error ⟨403, "无成员管理权限"⟩
      | none => .error ⟨403, "无成员管理权限"⟩

/-- `_ensure_manage_table_permissions_allowed`: membership required; owner
allowed; otherwise the member's tenant role must carry `can_manage_permissions`. -/
def ensureManagePermsAllowed (db : DB) (userId tenantId : String) :
    Except HErr Unit :=
  match getMembership db userId tenantId with
  | none => .error ⟨403, "当前租户无权限"⟩
  | some membership =>
    if membership.role == "owner" then .ok ()
    else
      match db.roles.find? (fun r => r.tenantId == tenantId && r.key == membership.roleKey) with
      | some role => if role.canManagePermissions then .ok () else .error ⟨403, "无表格权限管理权限"⟩
      | none => .error ⟨403, "无表格权限管理权限"⟩

/-- The tenant's owner-role membership rows. -/
def ownerMemberships (db : DB) (tenantId : String) : List Membership :=
  db.memberships.filter (fun m => m.tenantId == tenantId && m.role == "owner")

/-- `remove_member` (DELETE /tenants/current/members/{id}): manage-members
gate; no self-removal; member must exist; removing an owner requires an owner
operator and at least two owner rows; then the membership row is deleted. -/
def removeMember (db : DB) (memberUserId operatorId tenantId : String) :
    Except HErr DB :=
  match ensureManageMembersAllowed db operatorId tenantId with
  | .error e => .error e
  | .ok _ =>
    if operatorId == memberUserId then .error ⟨400, "不能移除自己"⟩
    else
      match getMembership db memberUserId tenantId with
      | none => .error ⟨404, "成员不存在"⟩
      | some membership =>
        let ownerGate : Except HErr Unit :=
          if membership.role == "owner" then
            match getMembership db operatorId tenantId with
            | none => .error ⟨403, "仅 Owner 可移除 Owner"⟩
            | some opMembership =>
              if opMembership.role != "owner" then .error ⟨403, "仅 Owner 可移除 Owner"⟩
              else if (ownerMemberships db tenantId).length ≤ 1 then
                .error ⟨400, "不能移除最后一个 Owner"⟩
              else .ok ()
          else .ok ()
        match ownerGate with
        | .error e => .error e
        | .ok _ =>
          .ok { db with
                memberships := db.memberships.eraseP
                  (fun m => m.userId == memberUserId && m.tenantId == tenantId) }

/-! ## Bulk permission replace and role-default propagation
(`backend/app/main.py`: `update_table_permissions`, `update_view_permissions`,
`apply_table_permissions_by_role_defaults`,
`_grant_permissions_by_role_defaults`, `_ensure_builtin_roles`) -/

/-- `TablePermissionItemIn` / `ViewPermissionItemIn` payload entry. -/
structure PermItemIn where
  userId : String
  canRead : Bool := true
  canWrite : Bool := false
  deriving Repr, DecidableEq

/-- `membership_map.get(user_id)`: the role of a tenant member.  The source
builds a dict from all tenant-scoped membership rows; `(user_id, tenant_id)`
is unique in the store, so the first row is the row. -/
def membershipRoleIn (db : DB) (tenantId userId : String) : Option String :=
  ((db.memberships.filter (fun m => m.tenantId == tenantId)).find?
    (fun m => m.userId == userId)).map (·.role)

/-- The flags upserted for one payload item: owners keep `can_read = True`
(and `can_write` as requested); other members get write-implies-read. -/
def permItemFlags (db : DB) (tenantId : String) (item : PermItemIn) : Bool × Bool :=
  if membershipRoleIn db tenantId item.userId = some "owner" then
    (true, if item.canWrite then true else false)
  else
    (item.canRead || item.canWrite, item.canWrite)

/-- The loop over `payload.items` writes each item in order into the row for
its user, so for a repeated user id the last item wins. -/
def lastItemFor (payload : List PermItemIn) (userId : String) : Option PermItemIn :=
  payload.reverse.find? (fun item => item.userId == userId)

/-- The sweep over existing table-permission rows of `(tenant, table)`:
rows of targeted users take the (last) payload item's flags; untargeted owner
rows are reset to full access; other untargeted rows are deleted; rows of
other tables pass through. -/
def tablePermSweep (db : DB) (tableId tenantId : String) (payload : List PermItemIn) :
    List TablePermission :=
  db.tablePerms.filterMap (fun row =>
    if row.tenantId == tenantId && row.tableId == tableId then
      match lastItemFor payload row.userId with
      | some item =>
        some { row with canRead := (permItemFlags db tenantId item).1,
                        canWrite := (permItemFlags db tenantId item).2 }
      | none =>
        if membershipRoleIn db tenantId row.userId = some "owner" then
          some { row with canRead := true, canWrite := true }
        else none
    else some row)

/-- The rows inserted for payload items whose user has no existing row on the
table (button flags take the store defaults). -/
def tablePermAdds (db : DB) (tableId tenantId : String) (payload : List PermItemIn) :
    List TablePermission :=
  let existingUserIds := (db.tablePerms.filter
    (fun p => p.tenantId == tenantId && p.tableId == tableId)).map (·.userId)
  payload.filterMap (fun item =>
    if existingUserIds.contains item.userId then none
    else
      some { tenantId := tenantId, tableId := tableId, userId := item.userId,
             canRead := (permItemFlags db tenantId item).1,
             canWrite := (permItemFlags db tenantId item).2 : TablePermission })

/-- `PUT /tables/{table_id}/permissions` (`update_table_permissions`):
manage-permissions gate, table-existence gate, tenant-membership check on all
target users; then upsert a row per payload item and sweep the existing rows —
rows of users outside the target set are deleted, except owner rows, which are
reset to full read/write. -/
def updateTablePermissions (db : DB) (tableId : String) (payload : List PermItemIn)
    (operatorId tenantId : String) : Except HErr DB :=
  match ensureManagePermsAllowed db operatorId tenantId with
  | .error e => .error e
  | .ok _ =>
    match ensureTableExists db tableId tenantId with
    | .error e => .error e
    | .ok _ =>
      if payload.any (fun item => (membershipRoleIn db tenantId item.userId).isNone) then
        .error ⟨400, "存在不属于当前租户的成员"⟩
      else
        .ok { db with tablePerms :=
          tablePermSweep db tableId tenantId payload ++ tablePermAdds db tableId tenantId payload }

/-- The sweep over existing view-permission rows of `(tenant, view)`, same
shape as the table variant. -/
def viewPermSweep (db : DB) (viewId tenantId : String) (payload : List PermItemIn) :
    List ViewPermission :=
  db.viewPerms.filterMap (fun row =>
    if row.tenantId == tenantId && row.viewId == viewId then
      match lastItemFor payload row.userId with
      | some item =>
        some { row with canRead := (permItemFlags db tenantId item).1,
                        canWrite := (permItemFlags db tenantId item).2 }
      | none =>
        if membershipRoleIn db tenantId row.userId = some "owner" then
          some { row with canRead := true, canWrite := true }
        else none
    else some row)

/-- The view-permission rows inserted for payload items without an existing
row. -/
def viewPermAdds (db : DB) (viewId tenantId : String) (payload : List PermItemIn) :
    List ViewPermission :=
  let existingUserIds := (db.viewPerms.filter
    (fun p => p.tenantId == tenantId && p.viewId == viewId)).map (·.userId)
  payload.filterMap (fun item =>
    if existingUserIds.contains item.userId then none
    else
      some { tenantId := tenantId, viewId := viewId, userId := item.userId,
             canRead := (permItemFlags db tenantId item).1,
             canWrite := (permItemFlags db tenantId item).2 : ViewPermission })

/-- `PUT /views/{view_id}/permissions` (`update_view_permissions`): same
shape as the table variant, over view-permission rows. -/
def updateViewPermissions (db : DB) (viewId : String) (payload : List PermItemIn)
    (operatorId tenantId : String) : Except HErr DB :=
  match ensureManagePermsAllowed db operatorId tenantId with
  | .error e => .error e
  | .ok _ =>
    match ensureViewExists db viewId tenantId with
    | .error e => .error e
    | .ok _ =>
      if payload.any (fun item => (membershipRoleIn db tenantId item.userId).isNone) then
        .error ⟨400, "存在不属于当前租户的成员"⟩
      else
        .ok { db with viewPerms :=
          viewPermSweep db viewId tenantId payload ++ viewPermAdds db viewId tenantId payload }

/-- The five lazily-materialized built-in roles:
(key, name, can_manage_members, can_manage_permissions,
default_table_can_read, default_table_can_write). -/
def builtinRoleDefaults : List (String × String × Bool × Bool × Bool × Bool) :=
  [("member", "成员", false, false, true, false),
   ("admin", "管理员", true, true, true, true),
   ("project_manager", "项目经理", true, true, true, true),
   ("developer", "开发人员", false, false, true, true),
   ("implementer", "实施人员", false, false, true, true)]

/-- `_ensure_builtin_roles`: add any missing built-in role rows for the tenant. -/
def ensureBuiltinRoles (db : DB) (tenantId : String) : DB :=
  let existingKeys := (db.roles.filter (fun r => r.tenantId == tenantId)).map (·.key)
  let added := builtinRoleDefaults.filterMap (fun d =>
    if existingKeys.contains d.1 then none
    else some { tenantId := tenantId, key := d.1, name := d.2.1,
                canManageMembers := d.2.2.1, canManagePermissions := d.2.2.2.1,
                defaultTableCanRead := d.2.2.2.2.1,
                defaultTableCanWrite := d.2.2.2.2.2 : TenantRole })
  { db with roles := db.roles ++ added }

/-- `role_map.get(key)`: lookup of a tenant role by key (unique per tenant). -/
def roleByKey (db : DB) (tenantId key : String) : Option TenantRole :=
  db.roles.find? (fun r => r.tenantId == tenantId && r.key == key)

/-- The flags applied to one member by `apply_table_permissions_by_role_defaults`:
owners get full access; others take their role's defaults (read `True` /
write `False` when the role key resolves to nothing), with write forcing read. -/
def roleDefaultFlags (db : DB) (tenantId : String) (m : Membership) : Bool × Bool :=
  if m.role == "owner" then (true, true)
  else
    let key := if m.roleKey == "" then "member" else m.roleKey
    let canRead := match roleByKey db tenantId key with
      | some role => role.defaultTableCanRead
      | none => true
    let canWrite := match roleByKey db tenantId key with
      | some role => role.defaultTableCanWrite
      | none => false
    (if canWrite then true else canRead, canWrite)

/-- The update pass of `apply_table_permissions_by_role_defaults` over the
existing rows of `(tenant, table)`: rows of tenant members take their role's
default flags; rows of non-members (and rows of other tables) pass through. -/
def roleDefaultsSweep (db1 : DB) (tableId tenantId : String) : List TablePermission :=
  let members := db1.memberships.filter (fun m => m.tenantId == tenantId)
  db1.tablePerms.map (fun row =>
    if row.tenantId == tenantId && row.tableId == tableId then
      match members.find? (fun m => m.userId == row.userId) with
      | some m =>
        { row with canRead := (roleDefaultFlags db1 tenantId m).1,
                   canWrite := (roleDefaultFlags db1 tenantId m).2 }
      | none => row
    else row)

/-- The rows `apply_table_permissions_by_role_defaults` inserts for members
without an existing row on the table. -/
def roleDefaultsAdds (db1 : DB) (tableId tenantId : String) : List TablePermission :=
  let members := db1.memberships.filter (fun m => m.tenantId == tenantId)
  let existingUserIds := (db1.tablePerms.filter
    (fun p => p.tenantId == tenantId && p.tableId == tableId)).map (·.userId)
  members.filterMap (fun m =>
    if existingUserIds.contains m.userId then none
    else
      some { tenantId := tenantId, tableId := tableId, userId := m.userId,
             canRead := (roleDefaultFlags db1 tenantId m).1,
             canWrite := (roleDefaultFlags db1 tenantId m).2 : TablePermission })

/-- `POST /tables/{table_id}/permissions/apply-role-defaults`
(`apply_table_permissions_by_role_defaults`): gates, built-in role
materialization, then an upsert of a permission row for every tenant member
using the member's role defaults.  Rows of users with no membership are left
untouched (there is no delete sweep here). -/
def applyTablePermissionsByRoleDefaults (db : DB) (tableId operatorId tenantId : String) :
    Except HErr DB :=
  match ensureManagePermsAllowed db operatorId tenantId with
  | .error e => .error e
  | .ok _ =>
    match ensureTableExists db tableId tenantId with
    | .error e => .error e
    | .ok _ =>
      let db1 := ensureBuiltinRoles db tenantId
      .ok { db1 with tablePerms :=
        roleDefaultsSweep db1 tableId tenantId ++ roleDefaultsAdds db1 tableId tenantId }

/-- `_grant_permissions_by_role_defaults`: on member creation / role change,
upsert `can_read = default_read or default_write`, `can_write = default_write`
on every table and view of the tenant for the given user. -/
def grantPermissionsByRoleDefaults (db : DB) (tenantId userId : String)
    (role : TenantRole) : DB :=
  let canRead := role.defaultTableCanRead || role.defaultTableCanWrite
  let canWrite := role.defaultTableCanWrite
  let tableIds := (db.tables.filter (fun t => t.tenantId == tenantId)).map (·.id)
  let viewIds := (db.views.filter (fun v => v.tenantId == tenantId)).map (·.id)
  let sweptT := db.tablePerms.map (fun row =>
    if row.tenantId == tenantId && tableIds.contains row.tableId && row.userId == userId then
      { row with canRead := canRead, canWrite := canWrite }
    else row)
  let addedT := tableIds.filterMap (fun tid =>
    if db.tablePerms.any (fun p =>
        p.tenantId == tenantId && p.tableId == tid && p.userId == userId) then none
    else some { tenantId := tenantId, tableId := tid, userId := userId,
                canRead := canRead, canWrite := canWrite : TablePermission })
  let sweptV := db.viewPerms.map (fun row =>
    if row.tenantId == tenantId && viewIds.contains row.viewId && row.userId == userId then
      { row with canRead := canRead, canWrite := canWrite }
    else row)
  let addedV := viewIds.filterMap (fun vid =>
    if db.viewPerms.any (fun p =>
        p.tenantId == tenantId && p.viewId == vid && p.userId == userId) then none
    else some { tenantId := tenantId, viewId := vid, userId := userId,
                canRead := canRead, canWrite := canWrite : ViewPermission })
  { db with tablePerms := sweptT ++ addedT, viewPerms := sweptV ++ addedV }

/-! ## Python value semantics used by `backend/app/services.py` -/

mutual

/-- Python `repr` of a JSON value, used inside `str` of a list.  String
quoting is approximated: CPython switches quote style when the text itself
contains quotes, a case no stored claim input exercises. -/
def pyRepr : Value → String
  | .null => "None"
  | .bool true => "True"
  | .bool false => "False"
  | .num q => if q.den = 1 then toString q.num else toString q
  | .str s => "\x27" ++ s ++ "\x27"
  | .list vs => "[" ++ pyReprList vs ++ "]"

/-- Comma-joined reprs of list elements. -/
def pyReprList : List Value → String
  | [] => ""
  | [v] => pyRepr v
  | v :: vs => pyRepr v ++ ", " ++ pyReprList vs

end

/-- CPython `str.lower()` (ASCII mapping; full-Unicode lowering is out of
scope).  Written over the character list so that it evaluates in the kernel. -/
def strLower (s : String) : String := String.mk (s.data.map Char.toLower)

/-- Lexicographic code-point comparison, CPython `<` on strings. -/
def charsLt : List Char → List Char → Bool
  | [], [] => false
  | [], _ :: _ => true
  | _ :: _, [] => false
  | a :: as, b :: bs => if a < b then true else if b < a then false else charsLt as bs

/-- CPython `a < b` on strings. -/
def strLtB (a b : String) : Bool := charsLt a.data b.data

/-- CPython `a <= b` on strings. -/
def strLeB (a b : String) : Bool := !(charsLt b.data a.data)

/-- The ASCII whitespace stripped by `str.strip()` (Unicode spaces are out of
scope). -/
def isPySpace (c : Char) : Bool :=
  c == ' ' || c == '\t' || c == '\n' || c == '\r' || c == '\x0b' || c == '\x0c'

/-- CPython `str.strip()`. -/
def pyStrip (s : String) : String :=
  String.mk (((s.data.dropWhile isPySpace).reverse.dropWhile isPySpace).reverse)

/-- `value.replace("Z", "+00:00")` — the pattern is a single character, so a
character fold is exact. -/
def replaceZ (s : String) : String :=
  String.mk (s.data.foldr
    (fun c acc => if c == 'Z' then '+' :: '0' :: '0' :: ':' :: '0' :: '0' :: acc else c :: acc)
    [])

/-- Python `str` of a JSON value.  Integers render exactly; non-integral
numbers are rationals standing in for floats, so their rendering is
approximate (no claim depends on float formatting). -/
def pyStr : Value → String
  | .str s => s
  | .list vs => "[" ++ pyReprList vs ++ "]"
  | v => pyRepr v

/-- Python truthiness of a JSON value. -/
def pyTruthy : Value → Bool
  | .null => false
  | .bool b => b
  | .num q => decide (q ≠ 0)
  | .str s => !(s == "")
  | .list vs => !vs.isEmpty

/-- `value or ""`: a falsy value is replaced by the empty string. -/
def pyOrEmptyStr (v : Value) : Value := if pyTruthy v then v else .str ""

mutual

/-- Python `==` on JSON values: numbers and booleans compare numerically
(`True == 1`), lists compare elementwise, differing kinds are unequal. -/
def pyEq : Value → Value → Bool
  | .null, .null => true
  | .bool a, .bool b => a == b
  | .bool a, .num b => (if a then (1 : ℚ) else 0) == b
  | .num a, .bool b => a == (if b then (1 : ℚ) else 0)
  | .num a, .num b => a == b
  | .str a, .str b => a == b
  | .list a, .list b => pyEqList a b
  | _, _ => false

/-- Elementwise Python `==` on lists. -/
def pyEqList : List Value → List Value → Bool
  | [], [] => true
  | a :: as, b :: bs => pyEq a b && pyEqList as bs
  | _, _ => false

end

/-- Digits of a non-empty all-digit character list, as a number. -/
def digitsToNat? (cs : List Char) : Option ℕ :=
  if cs.isEmpty then none
  else if cs.all (·.isDigit) then
    some (cs.foldl (fun a c => a * 10 + (c.toNat - 48)) 0)
  else none

/-- CPython `float(text)` on finite decimal literals: optional sign, digits
with optional fraction, optional exponent.  `inf`/`nan` and underscore
separators are not modelled. -/
def parseFloat? (s : String) : Option ℚ :=
  let cs := s.toList
  let signNeg := cs.head? == some '-'
  let cs := if cs.head? == some '+' || cs.head? == some '-' then cs.tail else cs
  let mant := cs.takeWhile (fun c => !(c == 'e' || c == 'E'))
  let expPart := cs.drop mant.length
  let intPart := mant.takeWhile (fun c => !(c == '.'))
  let fracPart := mant.drop intPart.length
  let frac? : Option (List Char) :=
    match fracPart with
    | [] => some []
    | '.' :: f => if f.all (·.isDigit) then some f else none
    | _ => none
  let exp? : Option Int :=
    match expPart with
    | [] => some 0
    | _ :: '+' :: d => (digitsToNat? d).map (fun n => (n : Int))
    | _ :: '-' :: d => (digitsToNat? d).map (fun n => -(n : Int))
    | _ :: d => (digitsToNat? d).map (fun n => (n : Int))
  match frac?, exp? with
  | some frac, some e =>
    if intPart.all (·.isDigit) && !(intPart.isEmpty && frac.isEmpty) then
      let natVal := (intPart ++ frac).foldl (fun a c => a * 10 + (c.toNat - 48)) (0 : ℕ)
      let mantissa : ℚ := (natVal : ℚ) / (10 : ℚ) ^ frac.length
      some ((if signNeg then -1 else 1) * mantissa * (10 : ℚ) ^ e)
    else none
  | _, _ => none

/-- `_to_float`: numbers pass through (Python `bool` is an `int`), strings are
stripped and parsed, everything else drops to `None`. -/
def toFloat? : Value → Option ℚ
  | .null => none
  | .num q => some q
  | .bool b => some (if b then 1 else 0)
  | .str s =>
    let text := pyStrip s
    if text == "" then none else parseFloat? text
  | .list _ => none

/-! ## Date parsing (`date.fromisoformat` / `datetime.fromisoformat`),
modelled on the canonical ISO forms the repository stores. -/

/-- Gregorian leap year. -/
def isLeapYear (y : Int) : Bool := y % 4 == 0 && (y % 100 != 0 || y % 400 == 0)

/-- Length of a month. -/
def daysInMonth (y m : Int) : Int :=
  if m == 2 then (if isLeapYear y then 29 else 28)
  else if m == 4 || m == 6 || m == 9 || m == 11 then 30
  else 31

/-- Days between a civil date and 1970-01-01 (Hinnant's algorithm; divisions
truncate toward zero exactly as in the reference formulation). -/
def daysFromCivil (y m d : Int) : Int :=
  let yAdj := if m ≤ 2 then y - 1 else y
  let era := (if yAdj ≥ 0 then yAdj else yAdj - 399) / 400
  let yoe := yAdj - era * 400
  let mp := (m + 9) % 12
  let doy := (153 * mp + 2) / 5 + d - 1
  let doe := yoe * 365 + yoe / 4 - yoe / 100 + doy
  era * 146097 + doe - 719468

/-- `date.fromisoformat` on `YYYY-MM-DD`, returning an epoch day count. -/
def parseDateOnly? (s : String) : Option Int :=
  match s.toList with
  | [y1, y2, y3, y4, '-', m1, m2, '-', d1, d2] =>
    match digitsToNat? [y1, y2, y3, y4], digitsToNat? [m1, m2], digitsToNat? [d1, d2] with
    | some y, some m, some d =>
      if 1 ≤ y && y ≤ 9999 && 1 ≤ m && m ≤ 12 && 1 ≤ d
          && (d : Int) ≤ daysInMonth (y : Int) (m : Int) then
        some (daysFromCivil (y : Int) (m : Int) (d : Int))
      else none
    | _, _, _ => none
  | _ => none

/-- Time of day `HH[:MM[:SS[.f…]]]` as microseconds. -/
def parseTimeOfDay? (cs : List Char) : Option Int :=
  let frac? : List Char → Option Int := fun f =>
    if 1 ≤ f.length && f.length ≤ 6 && f.all (·.isDigit) then
      (digitsToNat? f).map (fun n => (n : Int) * (10 : Int) ^ (6 - f.length))
    else none
  let hms? : ℕ → ℕ → ℕ → Option Int := fun h m s =>
    if h ≤ 23 && m ≤ 59 && s ≤ 59 then
      some (((h : Int) * 3600 + (m : Int) * 60 + (s : Int)) * 1000000)
    else none
  match cs with
  | [h1, h2] =>
    match digitsToNat? [h1, h2] with
    | some h => hms? h 0 0
    | none => none
  | [h1, h2, ':', m1, m2] =>
    match digitsToNat? [h1, h2], digitsToNat? [m1, m2] with
    | some h, some m => hms? h m 0
    | _, _ => none
  | [h1, h2, ':', m1, m2, ':', s1, s2] =>
    match digitsToNat? [h1, h2], digitsToNat? [m1, m2], digitsToNat? [s1, s2] with
    | some h, some m, some s => hms? h m s
    | _, _, _ => none
  | h1 :: h2 :: ':' :: m1 :: m2 :: ':' :: s1 :: s2 :: '.' :: f =>
    match digitsToNat? [h1, h2], digitsToNat? [m1, m2], digitsToNat? [s1, s2], frac? f with
    | some h, some m, some s, some micros => (hms? h m s).map (· + micros)
    | _, _, _, _ => none
  | _ => none

/-- `datetime.fromisoformat` (after the caller's `Z → +00:00` rewrite):
microseconds since epoch with the offset applied.  A value with no offset is
naive; CPython refuses to order naive against aware datetimes, which the
embedding totalizes by treating naive as offset zero. -/
def parseDateTime? (s : String) : Option Int :=
  let cs := s.toList
  let datePart := cs.takeWhile (fun c => !(c == 'T'))
  match cs.drop datePart.length with
  | 'T' :: timeRest =>
    let timePart := timeRest.takeWhile (fun c => !(c == '+' || c == '-'))
    let offPart := timeRest.drop timePart.length
    let off? : Option Int :=
      match offPart with
      | [] => some 0
      | sign :: o1 :: o2 :: ':' :: o3 :: o4 :: [] =>
        match digitsToNat? [o1, o2], digitsToNat? [o3, o4] with
        | some oh, some om =>
          if oh ≤ 23 && om ≤ 59 then
            some ((if sign == '-' then -1 else 1) * ((oh : Int) * 3600 + (om : Int) * 60))
          else none
        | _, _ => none
      | _ => none
    match parseDateOnly? (String.mk datePart), parseTimeOfDay? timePart, off? with
    | some days, some micros, some off =>
      some (days * 86400 * 1000000 + micros - off * 1000000)
    | _, _, _ => none
  | _ => none

/-! ## Sort keys (`_normalize_sort_value`) -/

/-- The orderable keys `_normalize_sort_value` can produce: a number, a parsed
`date`, a parsed `datetime`, or a string. -/
inductive SKey where
  | num (q : ℚ)
  | dOnly (d : Int)
  | dTime (ts : Int)
  | str (s : String)
  deriving Repr, DecidableEq

/-- Constructor rank, used to totalize cross-kind comparisons (where CPython
would raise `TypeError`; theorems about sorting carry homogeneity hypotheses
so only same-kind comparisons matter). -/
def SKey.rank : SKey → ℕ
  | .num _ => 0
  | .dOnly _ => 1
  | .dTime _ => 2
  | .str _ => 3

/-- Comparison of sort keys: CPython's `<=` on same-kind keys, rank order
across kinds. -/
def SKey.leb : SKey → SKey → Bool
  | .num a, .num b => decide (a ≤ b)
  | .dOnly a, .dOnly b => decide (a ≤ b)
  | .dTime a, .dTime b => decide (a ≤ b)
  | .str a, .str b => strLeB a b
  | a, b => decide (a.rank ≤ b.rank)

/-- Comparison lifted to optional keys (`None` keys, which would crash
CPython's sort, are totalized to sort first). -/
def optKeyLe : Option SKey → Option SKey → Bool
  | none, _ => true
  | some _, none => false
  | some a, some b => a.leb b

/-- `_normalize_sort_value`: `None` stays null; with no field metadata the
value lower-cases to a string key; `number` fields keep numeric values (and
drop everything else to a null key); `date` fields parse strings, falling back
to the raw (not lower-cased) string; all other cases lower-case `str(value)`. -/
def normalizeSortValue (field : Option Field) (value : Value) : Option SKey :=
  match value with
  | .null => none
  | v =>
    match field with
    | none => some (.str (strLower (pyStr v)))
    | some f =>
      if f.type == "number" then
        match v with
        | .num q => some (.num q)
        | .bool b => some (.num (if b then 1 else 0))
        | _ => none
      else if f.type == "date" then
        match v with
        | .str s =>
          if s.data.contains 'T' then
            match parseDateTime? (replaceZ s) with
            | some ts => some (.dTime ts)
            | none => some (.str s)
          else
            match parseDateOnly? s with
            | some d => some (.dOnly d)
            | none => some (.str s)
        | _ => some (.str (strLower (pyStr v)))
      else some (.str (strLower (pyStr v)))

/-! ## Filter evaluation (`_match_filter`) and the query pipeline
(`apply_filters_and_sorts`) -/

/-- A record as the query engine sees it: its id and its sparse
`(field_id, value_json)` rows. -/
structure QRecord where
  id : String := ""
  values : List (String × Value) := []
  deriving Repr, DecidableEq

/-- `_record_value_by_field`: first stored value for the field, else null. -/
def recordValueByField (r : QRecord) (fieldId : String) : Value :=
  match r.values.find? (fun p => p.1 == fieldId) with
  | some p => p.2
  | none => Value.null

/-- A filter item `{fieldId, op, value}`; absent `op` is `none`, an absent
`value` key reads as Python `None`, i.e. `Value.null`. -/
structure FilterItem where
  fieldId : Value := .null
  op : Option Value := none
  value : Value := .null
  deriving Repr, DecidableEq

/-- A sort item `{fieldId, direction}`. -/
structure SortItem where
  fieldId : Value := .null
  direction : Option Value := none
  deriving Repr, DecidableEq

/-- Python `needle in hay` on character lists. -/
def charsInfixOf : List Char → List Char → Bool
  | n, [] => n.isEmpty
  | n, h :: t => n.isPrefixOf (h :: t) || charsInfixOf n t

/-- Python substring test `needle in hay`. -/
def strInfixOf (needle hay : String) : Bool := charsInfixOf needle.toList hay.toList

/-- `isinstance(v, (int, float))` with numeric coercion (`True` is `1`). -/
def pyNum? : Value → Option ℚ
  | .num q => some q
  | .bool b => some (if b then 1 else 0)
  | _ => none

/-- The shared shape of `gt/gte/lt/lte`: date fields compare string values
lexicographically; otherwise both sides must be numeric. -/
def orderOp (field : Option Field) (value expected : Value)
    (cmpS : String → String → Bool) (cmpQ : ℚ → ℚ → Bool) : Bool :=
  let dateStrings :=
    (match field with | some f => f.type == "date" | none => false)
    && (match value with | .str _ => true | _ => false)
    && (match expected with | .str _ => true | _ => false)
  if dateStrings then
    match value, expected with
    | .str v, .str e => cmpS v e
    | _, _ => false
  else
    match pyNum? value, pyNum? expected with
    | some a, some b => cmpQ a b
    | _, _ => false

/-- `value in (None, "", [], {})` (the dict member is unrepresentable for
stored record values, which are never dicts). -/
def pyIsEmptyValue (value : Value) : Bool :=
  pyEq value .null || pyEq value (.str "") || pyEq value (.list [])

/-- The case-insensitive substring test used for `contains` (and as the
final fallback): `str(expected or "").lower() in str(value or "").lower()`. -/
def containsMatch (value expected : Value) : Bool :=
  strInfixOf (strLower (pyStr (pyOrEmptyStr expected))) (strLower (pyStr (pyOrEmptyStr value)))

/-- `_match_filter`: dispatch on `str(op).lower()` with default `contains`;
unknown ops fall through to equality on `singleSelect` fields, else to the
`contains` test. -/
def matchFilter (field : Option Field) (value : Value) (item : FilterItem) : Bool :=
  let op := strLower (match item.op with | none => "contains" | some v => pyStr v)
  let expected := item.value
  if op == "contains" then containsMatch value expected
  else if op == "eq" || op == "equals" then pyEq value expected
  else if op == "neq" then !pyEq value expected
  else if op == "in" then
    match expected with
    | .list l => l.any (fun e => pyEq value e)
    | _ => false
  else if op == "nin" then
    match expected with
    | .list l => !(l.any (fun e => pyEq value e))
    | _ => true
  else if op == "empty" then pyIsEmptyValue value
  else if op == "not_empty" then !pyIsEmptyValue value
  else if op == "gt" then
    orderOp field value expected (fun v e => strLtB e v) (fun a b => decide (b < a))
  else if op == "gte" then
    orderOp field value expected (fun v e => strLeB e v) (fun a b => decide (b ≤ a))
  else if op == "lt" then
    orderOp field value expected (fun v e => strLtB v e) (fun a b => decide (a < b))
  else if op == "lte" then
    orderOp field value expected (fun v e => strLeB v e) (fun a b => decide (a ≤ b))
  else if (match field with | some f => f.type == "singleSelect" | none => false) then
    pyEq value expected
  else containsMatch value expected

/-- A boolean comparison viewed as a decidable relation. -/
def bleRel {α : Type} (le : α → α → Bool) : α → α → Prop :=
  fun a b => le a b = true

instance {α : Type} (le : α → α → Bool) : DecidableRel (bleRel le) :=
  fun a b => instDecidableEqBool (le a b) true

/-- A stable sort by a boolean total preorder.  CPython's `sorted` is Timsort,
a stable sort; any two stable sorts under the same total preorder produce the
same list, so insertion sort is an extensionally faithful model.  `sorted`
with `reverse=True` reverses every comparison while keeping ties in input
order, which is sorting by the flipped relation. -/
def bsort {α : Type} (le : α → α → Bool) (l : List α) : List α :=
  l.insertionSort (bleRel le)

/-- The valid field id of a filter item: present, a string, non-empty. -/
def validFilterId (item : FilterItem) : Option String :=
  match item.fieldId with
  | .str s => if s == "" then none else some s
  | _ => none

/-- One pass of the sort loop body for a single sort item: skip items without
a usable field id; partition on null raw values; stable-sort the non-null part
by the normalized key (reversed for `desc`); nulls go last. -/
def sortPass (fieldsById : String → Option Field) (acc : List QRecord)
    (item : SortItem) : List QRecord :=
  match item.fieldId with
  | .str fieldId =>
    if fieldId == "" then acc
    else
      let direction := strLower (match item.direction with | none => "asc" | some v => pyStr v)
      let field := fieldsById fieldId
      let key := fun r => normalizeSortValue field (recordValueByField r fieldId)
      let nonNull := acc.filter (fun r => !(recordValueByField r fieldId == Value.null))
      let nulls := acc.filter (fun r => recordValueByField r fieldId == Value.null)
      let sortedNonNull :=
        if direction == "desc" then bsort (fun a b => optKeyLe (key b) (key a)) nonNull
        else bsort (fun a b => optKeyLe (key a) (key b)) nonNull
      sortedNonNull ++ nulls
  | _ => acc

/-- `apply_filters_and_sorts`: drop filters without a usable field id; apply
the remaining filters (`or`: one pass over the records testing any filter;
otherwise sequential intersection); then apply the sort items right-to-left by
repeated stable sort. -/
def applyFiltersAndSorts (records : List QRecord) (fieldsById : String → Option Field)
    (filters : List FilterItem) (sorts : List SortItem)
    (filterLogic : String := "and") : List QRecord :=
  let validFilters := filters.filter (fun item => (validFilterId item).isSome)
  let filtered :=
    if validFilters.isEmpty then records
    else if filterLogic == "or" then
      records.filter (fun record => validFilters.any (fun item =>
        let fieldId := pyStr item.fieldId
        matchFilter (fieldsById fieldId) (recordValueByField record fieldId) item))
    else
      validFilters.foldl (fun acc item =>
        let fieldId := pyStr item.fieldId
        acc.filter (fun record =>
          matchFilter (fieldsById fieldId) (recordValueByField record fieldId) item)) records
  sorts.reverse.foldl (sortPass fieldsById) filtered

/-! ## Aggregation engine (`aggregate_widget_data`) -/

/-- `DashboardWidgetModel` columns consumed by the aggregation engine. -/
structure Widget where
  type : String
  tenantId : String
  tableId : Option String := none
  fieldIds : List String := []
  aggregation : String := "count"
  groupFieldId : Option String := none
  deriving Repr, DecidableEq

/-- The `data` payload of a widget response. -/
inductive AggPayload where
  | metric (value : ℚ) (label : String)
  | chart (entries : List (String × ℚ))
  | rows (rs : List (String × List (String × Value))) (fieldIds : List String)
  deriving Repr, DecidableEq

/-- A widget response: `{"type": …, "data": …, "error": …}`. -/
structure AggResult where
  type : String
  data : Option AggPayload
  error : Option String := none
  deriving Repr, DecidableEq

/-- CPython `round` (banker's rounding, exact on the rational model of
numbers; float representation error is out of scope). -/
def roundHalfEven (x : ℚ) : Int :=
  let f := ⌊x⌋
  let r := x - f
  if r < 1/2 then f
  else if 1/2 < r then f + 1
  else if f % 2 = 0 then f else f + 1

/-- `round(x, 2)`. -/
def round2 (x : ℚ) : ℚ := (roundHalfEven (x * 100) : ℚ) / 100

/-- The `(record id, group value)` rows of the group query: an inner join of
records of the widget's table with their stored value rows for the group
field.  A record with no stored row for the group field yields nothing. -/
def groupRows (db : DB) (tenantId tableId groupFieldId : String) :
    List (String × Value) :=
  db.recordValues.filterMap (fun rv =>
    if rv.fieldId == groupFieldId
        && db.records.any (fun r =>
          r.id == rv.recordId && r.tenantId == tenantId && r.tableId == tableId) then
      some (rv.recordId, rv.value)
    else none)

/-- `numeric_by_record.get(record_id)`: the value rows for the metric field
(queried with no tenant/table restriction, as in the source), keyed by record
with dict last-wins semantics, coerced through `_to_float`. -/
def numericByRecord (db : DB) (valueFieldId recordId : String) : Option ℚ :=
  match ((db.recordValues.filter (fun rv => rv.fieldId == valueFieldId)).reverse.find?
      (fun rv => rv.recordId == recordId)) with
  | some rv => toFloat? rv.value
  | none => none

/-- The bucket label: `str(group_value)` unless the value is `None` or the
empty string, which label `(空)`. -/
def groupKeyOf (v : Value) : String :=
  if pyEq v .null || pyEq v (.str "") then "(空)" else pyStr v

/-- One step of bucket accumulation: ensure the key's bucket exists, then
append the optional numeric contribution. -/
def bumpGroup (m : List (String × List ℚ)) (key : String) (v? : Option ℚ) :
    List (String × List ℚ) :=
  let appended := match v? with | some v => [v] | none => []
  if m.any (fun p => p.1 == key) then
    m.map (fun p => if p.1 == key then (p.1, p.2 ++ appended) else p)
  else m ++ [(key, appended)]

/-- The `value_map` fold over the group rows: with a truthy value field each
row contributes its record's numeric value when present; otherwise each row
contributes `1.0`. -/
def buildValueMap (rows : List (String × Value)) (lookup : String → Option ℚ)
    (useValueField : Bool) : List (String × List ℚ) :=
  rows.foldl (fun m rv =>
    bumpGroup m (groupKeyOf rv.2) (if useValueField then lookup rv.1 else some 1)) []

/-- Bucket aggregation: `sum`, `avg` (empty bucket yields 0), else count;
rounded to two decimals. -/
def aggEntries (valueMap : List (String × List ℚ)) (aggregation : String) :
    List (String × ℚ) :=
  valueMap.map (fun p =>
    let computed : ℚ :=
      if aggregation == "sum" then p.2.sum
      else if aggregation == "avg" then
        (if p.2.isEmpty then 0 else p.2.sum / (p.2.length : ℚ))
      else (p.2.length : ℚ)
    (p.1, round2 computed))

/-- The stored values of one field over one table's records (the metric
branch's join). -/
def metricValues (db : DB) (tenantId tableId fieldId : String) : List Value :=
  db.recordValues.filterMap (fun rv =>
    if rv.fieldId == fieldId
        && db.records.any (fun r =>
          r.id == rv.recordId && r.tenantId == tenantId && r.tableId == tableId) then
      some rv.value
    else none)

/-- `aggregate_widget_data`: resolve aggregation and group field through the
Python `or`-chains (empty strings are falsy), then dispatch on the widget
type: `metric` (count / sum / avg over `_to_float`-coerced values), group-by
charts (`bar`/`pie`/`line`), `table` projection, or a typed error. -/
def aggregateWidgetData (db : DB) (widget : Widget)
    (overrideAggregation : Option String := none)
    (overrideGroupFieldId : Option String := none) (limit : Int := 20) : AggResult :=
  let widgetType := widget.type
  let aggregation :=
    match overrideAggregation with
    | some s =>
      if s == "" then (if widget.aggregation == "" then "count" else widget.aggregation)
      else s
    | none => if widget.aggregation == "" then "count" else widget.aggregation
  let groupFieldId :=
    match overrideGroupFieldId with
    | some s => if s == "" then widget.groupFieldId else some s
    | none => widget.groupFieldId
  let tableIdFalsy := match widget.tableId with | none => true | some s => s == ""
  if tableIdFalsy then { type := widgetType, data := none, error := some "未绑定数据表" }
  else
    let tableId := match widget.tableId with | some s => s | none => ""
    if widgetType == "metric" then
      if aggregation == "count" then
        let count := (db.records.filter
          (fun r => r.tenantId == widget.tenantId && r.tableId == tableId)).length
        { type := "metric", data := some (.metric (count : ℚ) "总记录数") }
      else
        match widget.fieldIds with
        | [] => { type := "metric", data := none, error := some "请选择数字字段" }
        | fieldId :: _ =>
          let numbers := (metricValues db widget.tenantId tableId fieldId).filterMap toFloat?
          if aggregation == "sum" then
            { type := "metric", data := some (.metric (round2 numbers.sum) "合计") }
          else
            { type := "metric",
              data := some (.metric
                (round2 (if numbers.isEmpty then 0 else numbers.sum / (numbers.length : ℚ)))
                "平均值") }
    else if widgetType == "bar" || widgetType == "pie" || widgetType == "line" then
      if (match groupFieldId with | none => true | some s => s == "") then
        { type := widgetType, data := some (.chart []), error := some "请选择分组字段" }
      else
        let gfid := match groupFieldId with | some s => s | none => ""
        let rows := groupRows db widget.tenantId tableId gfid
        let useValueField := (aggregation == "sum" || aggregation == "avg")
          && !widget.fieldIds.isEmpty
        let valueFieldId : Option String :=
          if useValueField then widget.fieldIds.head? else none
        let valueFieldTruthy := match valueFieldId with
          | some s => !(s == "")
          | none => false
        let valueMap := buildValueMap rows
          (fun rid => numericByRecord db (valueFieldId.getD "") rid) valueFieldTruthy
        let entries := bsort (fun a b => strLeB a.1 b.1) (aggEntries valueMap aggregation)
        { type := widgetType, data := some (.chart entries) }
    else if widgetType == "table" then
      let recs := bsort (fun a b => decide (b.createdAt ≤ a.createdAt))
        (db.records.filter (fun r => r.tenantId == widget.tenantId && r.tableId == tableId))
      let recs := recs.take (max 1 (min limit 500)).toNat
      let rows := recs.map (fun r =>
        (r.id, (db.recordValues.filter (fun rv => rv.recordId == r.id)).filterMap
          (fun rv =>
            if !widget.fieldIds.isEmpty && !widget.fieldIds.contains rv.fieldId then none
            else some (rv.fieldId, rv.value))))
      { type := "table", data := some (.rows rows widget.fieldIds) }
    else { type := widgetType, data := none, error := some ("不支持的类型: " ++ widgetType) }

/-! ## Claim C1: owner bypass ignores permission-row contents -/

/-- C1: for every user whose membership in the tenant carries the owner role,
the table read and write access checks return the table (whenever the table
resolves in the tenant) and every button-permission check allows, for every
database state — in particular regardless of the contents of any stored
`TablePermission` row for that user, which is never consulted. -/
theorem c1_owner_bypass (db : DB) (tableId tenantId userId : String) (table : Table)
    (access buttonKey : String)
    (hOwner : getMembershipRole db userId tenantId = some "owner") :
    (ensureTableExists db tableId tenantId = .ok table →
      ensureTableAccess db tableId tenantId userId access = .ok table) ∧
    ensureTableButtonPermission db tableId tenantId userId buttonKey = .ok () := by
  constructor
  · intro hex
    unfold ensureTableAccess
    rw [hex]
    simp [hOwner]
  · unfold ensureTableButtonPermission
    simp [hOwner]

/-- Database for the C1 witness: the owner's stored permission row has every
flag `false`, yet access and buttons are still allowed. -/
def dbOwnerRow : DB :=
  { memberships := [⟨"u1", "t1", "owner", "owner"⟩],
    tables := [⟨"tb1", "t1"⟩],
    tablePerms := [⟨"t1", "tb1", "u1", false, false, false, false, false, false, false, false⟩] }

/-- C1 witness: the theorem applied at a concrete store whose owner row has
all flags cleared. -/
theorem c1_owner_bypass_witness :
    ensureTableAccess dbOwnerRow "tb1" "t1" "u1" "write" = .ok ⟨"tb1", "t1"⟩ ∧
    ensureTableButtonPermission dbOwnerRow "tb1" "t1" "u1" "can_delete_record" = .ok () := by
  have h := c1_owner_bypass dbOwnerRow "tb1" "t1" "u1" ⟨"tb1", "t1"⟩ "write"
    "can_delete_record" (by rfl)
  exact ⟨h.1 (by rfl), h.2⟩

/-! ## Claim C2: default-deny for non-owners without a permission row -/

/-- C2: a tenant member whose role is not owner and who has no stored
permission row on a table is denied with a 403 by both the read and the write
access check; the table value is not returned. -/
theorem c2_no_row_default_deny (db : DB) (tableId tenantId userId : String)
    (table : Table) (role : String)
    (hex : ensureTableExists db tableId tenantId = .ok table)
    (hrole : getMembershipRole db userId tenantId = some role)
    (hNotOwner : role ≠ "owner")
    (hNoRow : findTablePerm db tenantId tableId userId = none) :
    ensureTableAccess db tableId tenantId userId "read" = .error ⟨403, "无该表访问权限"⟩ ∧
    ensureTableAccess db tableId tenantId userId "write" = .error ⟨403, "无该表访问权限"⟩ := by
  unfold ensureTableAccess
  rw [hex]
  simp [hrole, hNotOwner, hNoRow]

/-- Database for the C2 witness: one non-owner member, no permission rows. -/
def dbNoRow : DB :=
  { memberships := [⟨"u2", "t1", "member", "member"⟩],
    tables := [⟨"tb1", "t1"⟩] }

/-- C2 witness: the theorem applied at a concrete store. -/
theorem c2_no_row_default_deny_witness :
    ensureTableAccess dbNoRow "tb1" "t1" "u2" "read" = .error ⟨403, "无该表访问权限"⟩ ∧
    ensureTableAccess dbNoRow "tb1" "t1" "u2" "write" = .error ⟨403, "无该表访问权限"⟩ :=
  c2_no_row_default_deny dbNoRow "tb1" "t1" "u2" ⟨"tb1", "t1"⟩ "member"
    (by rfl) (by rfl) (by decide) (by rfl)

/-! ## Claim C4: resolution order of the access check -/

/-- Database for the C4 counterexample: an owner membership and no tables. -/
def dbOwnerNoTable : DB :=
  { memberships := [⟨"u1", "t1", "owner", "owner"⟩] }

/-- C4 counterexample: the claim says an owner-role caller is allowed whether
or not the table id resolves; in the code the existence check runs first, so
an owner asking for an unresolvable table id gets a 404 error, not Allow. -/
theorem c4_counterexample :
    getMembershipRole dbOwnerNoTable "u1" "t1" = some "owner" ∧
    ensureTableAccess dbOwnerNoTable "tb1" "t1" "u1" "read" =
      .error ⟨404, "数据表不存在"⟩ :=
  ⟨rfl, rfl⟩

/-- C4 amended: the steps short-circuit in the order the code uses — resource
existence first (its error is returned unchanged, owner or not), then the
owner bypass (an owner-role caller is allowed as soon as the table resolves,
before any permission-row lookup). -/
theorem c4_existence_then_owner_bypass (db : DB) (tableId tenantId userId access : String) :
    (∀ e, ensureTableExists db tableId tenantId = .error e →
      ensureTableAccess db tableId tenantId userId access = .error e) ∧
    (∀ table, ensureTableExists db tableId tenantId = .ok table →
      getMembershipRole db userId tenantId = some "owner" →
      ensureTableAccess db tableId tenantId userId access = .ok table) := by
  constructor
  · intro e he
    unfold ensureTableAccess
    rw [he]
  · intro table hex hOwner
    unfold ensureTableAccess
    rw [hex]
    simp [hOwner]

/-- C4 witness: both amended branches at concrete stores. -/
theorem c4_existence_then_owner_bypass_witness :
    ensureTableAccess dbOwnerNoTable "tb1" "t1" "u1" "read" = .error ⟨404, "数据表不存在"⟩ ∧
    ensureTableAccess dbOwnerRow "tb1" "t1" "u1" "read" = .ok ⟨"tb1", "t1"⟩ :=
  ⟨(c4_existence_then_owner_bypass dbOwnerNoTable "tb1" "t1" "u1" "read").1
      ⟨404, "数据表不存在"⟩ (by rfl),
   (c4_existence_then_owner_bypass dbOwnerRow "tb1" "t1" "u1" "read").2
      ⟨"tb1", "t1"⟩ (by rfl) (by rfl)⟩

/-! ## Claim C5: member removal and the at-least-one-owner invariant -/

/-- C5: (a) removing the tenant's last owner membership always errors (the
stored membership is untouched, since an error returns no new store);
(b) an owner removing another owner succeeds when at least two owner rows
exist; (c) an operator whose own role is not owner can never remove an
owner membership. -/
theorem c5_member_removal_owner_invariant :
    (∀ (db : DB) (memberUserId operatorId tenantId : String) (m : Membership),
      getMembership db memberUserId tenantId = some m → m.role = "owner" →
      ownerMemberships db tenantId = [m] →
      ∃ e, removeMember db memberUserId operatorId tenantId = .error e) ∧
    (∀ (db : DB) (memberUserId operatorId tenantId : String) (m mo : Membership),
      getMembership db operatorId tenantId = some mo → mo.role = "owner" →
      getMembership db memberUserId tenantId = some m → m.role = "owner" →
      operatorId ≠ memberUserId →
      2 ≤ (ownerMemberships db tenantId).length →
      ∃ db', removeMember db memberUserId operatorId tenantId = .ok db') ∧
    (∀ (db : DB) (memberUserId operatorId tenantId : String) (m mo : Membership),
      getMembership db operatorId tenantId = some mo → mo.role ≠ "owner" →
      getMembership db memberUserId tenantId = some m → m.role = "owner" →
      ∃ e, removeMember db memberUserId operatorId tenantId = .error e) := by
  refine ⟨?_, ?_, ?_⟩
  · intro db memberUserId operatorId tenantId m hm hrole hlast
    unfold removeMember
    cases hgate : ensureManageMembersAllowed db operatorId tenantId with
    | error e => exact ⟨e, rfl⟩
    | ok _ =>
      by_cases hself : operatorId = memberUserId
      · exact ⟨⟨400, "不能移除自己"⟩, by simp [hself]⟩
      · rw [hm]
        cases hop : getMembership db operatorId tenantId with
        | none => exact ⟨⟨403, "仅 Owner 可移除 Owner"⟩, by simp [hself, hrole]⟩
        | some opM =>
          by_cases hopRole : opM.role = "owner"
          · refine ⟨⟨400, "不能移除最后一个 Owner"⟩, ?_⟩
            simp [hself, hrole, hopRole, hlast]
          · exact ⟨⟨403, "仅 Owner 可移除 Owner"⟩, by simp [hself, hrole, hopRole]⟩
  · intro db memberUserId operatorId tenantId m mo hop hopRole hm hrole hne hcount
    unfold removeMember ensureManageMembersAllowed
    rw [hop, hm]
    have hlen : ¬ ((ownerMemberships db tenantId).length ≤ 1) := by omega
    exact ⟨_, by simp [hopRole, hne, hrole, hlen]; rfl⟩
  · intro db memberUserId operatorId tenantId m mo hop hopRole hm hrole
    unfold removeMember ensureManageMembersAllowed
    rw [hop]
    have hneq : operatorId ≠ memberUserId := by
      intro h
      rw [h, hm] at hop
      cases hop
      exact hopRole hrole
    cases hfind : db.roles.find? (fun r => r.tenantId == tenantId && r.key == mo.roleKey) with
    | none => exact ⟨⟨403, "无成员管理权限"⟩, by simp [hopRole, hfind]⟩
    | some role =>
      by_cases hmm : role.canManageMembers
      · rw [hm]
        exact ⟨⟨403, "仅 Owner 可移除 Owner"⟩, by simp [hopRole, hfind, hmm, hneq, hrole, hop]⟩
      · exact ⟨⟨403, "无成员管理权限"⟩, by simp [hopRole, hfind, hmm]⟩

/-- Store for the C5 witness: two owners and one plain member in tenant t1. -/
def dbOwners : DB :=
  { memberships := [⟨"u1", "t1", "owner", "owner"⟩, ⟨"u2", "t1", "owner", "owner"⟩,
                    ⟨"u3", "t1", "member", "member"⟩] }

/-- Store for the C5 witness with a single owner. -/
def dbOneOwner : DB :=
  { memberships := [⟨"u1", "t1", "owner", "owner"⟩, ⟨"u2", "t1", "member", "member"⟩] }

/-- C5 witness: all three branches of the theorem at concrete stores. -/
theorem c5_member_removal_owner_invariant_witness :
    (∃ e, removeMember dbOneOwner "u1" "u2" "t1" = .error e) ∧
    (∃ db', removeMember dbOwners "u2" "u1" "t1" = .ok db') ∧
    (∃ e, removeMember dbOwners "u1" "u3" "t1" = .error e) :=
  ⟨c5_member_removal_owner_invariant.1 dbOneOwner "u1" "u2" "t1"
      ⟨"u1", "t1", "owner", "owner"⟩ (by rfl) (by rfl) (by rfl),
   c5_member_removal_owner_invariant.2.1 dbOwners "u2" "u1" "t1"
      ⟨"u2", "t1", "owner", "owner"⟩ ⟨"u1", "t1", "owner", "owner"⟩
      (by rfl) (by rfl) (by rfl) (by rfl) (by decide) (by decide),
   c5_member_removal_owner_invariant.2.2 dbOwners "u1" "u3" "t1"
      ⟨"u1", "t1", "owner", "owner"⟩ ⟨"u3", "t1", "member", "member"⟩
      (by rfl) (by decide) (by rfl) (by rfl)⟩

/-! ## Claim C10: persisted rows never have write without read -/

/-- Flags computed for a payload item always satisfy write-implies-read. -/
lemma permItemFlags_write_read (db : DB) (tenantId : String) (item : PermItemIn) :
    (permItemFlags db tenantId item).2 = true → (permItemFlags db tenantId item).1 = true := by
  unfold permItemFlags
  by_cases h : membershipRoleIn db tenantId item.userId = some "owner"
  · simp [h]
  · simp [h]
    intro h2
    simp [h2]

/-- Role-default flags always satisfy write-implies-read. -/
lemma roleDefaultFlags_write_read (db : DB) (tenantId : String) (m : Membership) :
    (roleDefaultFlags db tenantId m).2 = true → (roleDefaultFlags db tenantId m).1 = true := by
  unfold roleDefaultFlags
  cases hr : (m.role == "owner") <;> simp [hr]
  intro h2
  simp [h2]

/-- Every row surviving the table-permission sweep is either an untouched
pre-state row or satisfies write-implies-read. -/
lemma mem_tablePermSweep_cases (db : DB) (tableId tenantId : String)
    (payload : List PermItemIn) (row : TablePermission)
    (h : row ∈ tablePermSweep db tableId tenantId payload) :
    row ∈ db.tablePerms ∨ (row.canWrite = true → row.canRead = true) := by
  unfold tablePermSweep at h
  rcases List.mem_filterMap.mp h with ⟨orig, ho, heq⟩
  split at heq
  · split at heq
    next item _ =>
      cases heq
      right
      simpa using permItemFlags_write_read db tenantId item
    next =>
      split at heq
      · cases heq
        right
        simp
      · cases heq
  · cases heq
    left
    exact ho

/-- Every row added by the table-permission replace satisfies
write-implies-read. -/
lemma mem_tablePermAdds_flags (db : DB) (tableId tenantId : String)
    (payload : List PermItemIn) (row : TablePermission)
    (h : row ∈ tablePermAdds db tableId tenantId payload) :
    row.canWrite = true → row.canRead = true := by
  simp only [tablePermAdds] at h
  rcases List.mem_filterMap.mp h with ⟨item, hi, heq⟩
  split at heq
  · cases heq
  · cases heq
    simpa using permItemFlags_write_read db tenantId item

/-- View-permission sweep analogue of `mem_tablePermSweep_cases`. -/
lemma mem_viewPermSweep_cases (db : DB) (viewId tenantId : String)
    (payload : List PermItemIn) (row : ViewPermission)
    (h : row ∈ viewPermSweep db viewId tenantId payload) :
    row ∈ db.viewPerms ∨ (row.canWrite = true → row.canRead = true) := by
  unfold viewPermSweep at h
  rcases List.mem_filterMap.mp h with ⟨orig, ho, heq⟩
  split at heq
  · split at heq
    next item _ =>
      cases heq
      right
      simpa using permItemFlags_write_read db tenantId item
    next =>
      split at heq
      · cases heq
        right
        simp
      · cases heq
  · cases heq
    left
    exact ho

/-- View-permission adds analogue of `mem_tablePermAdds_flags`. -/
lemma mem_viewPermAdds_flags (db : DB) (viewId tenantId : String)
    (payload : List PermItemIn) (row : ViewPermission)
    (h : row ∈ viewPermAdds db viewId tenantId payload) :
    row.canWrite = true → row.canRead = true := by
  simp only [viewPermAdds] at h
  rcases List.mem_filterMap.mp h with ⟨item, hi, heq⟩
  split at heq
  · cases heq
  · cases heq
    simpa using permItemFlags_write_read db tenantId item

/-- Rows surviving the role-defaults update pass. -/
lemma mem_roleDefaultsSweep_cases (db1 : DB) (tableId tenantId : String)
    (row : TablePermission) (h : row ∈ roleDefaultsSweep db1 tableId tenantId) :
    row ∈ db1.tablePerms ∨ (row.canWrite = true → row.canRead = true) := by
  simp only [roleDefaultsSweep] at h
  rcases List.mem_map.mp h with ⟨orig, ho, heq⟩
  split at heq
  · split at heq
    next m _ =>
      cases heq
      right
      simpa using roleDefaultFlags_write_read db1 tenantId m
    next =>
      cases heq
      left
      exact ho
  · cases heq
    left
    exact ho

/-- Rows added by the role-defaults pass satisfy write-implies-read. -/
lemma mem_roleDefaultsAdds_flags (db1 : DB) (tableId tenantId : String)
    (row : TablePermission) (h : row ∈ roleDefaultsAdds db1 tableId tenantId) :
    row.canWrite = true → row.canRead = true := by
  simp only [roleDefaultsAdds] at h
  rcases List.mem_filterMap.mp h with ⟨m, hm, heq⟩
  split at heq
  · cases heq
  · cases heq
    simpa using roleDefaultFlags_write_read db1 tenantId m

/-- C10: every table- or view-permission row written by the bulk permission
replace, the apply-role-defaults action, or the role-default grant satisfies
`can_write → can_read`; rows in the post-state either already existed
unchanged in the pre-state or carry write-implies-read flags. -/
theorem c10_written_rows_write_implies_read :
    (∀ (db db' : DB) (tableId : String) (payload : List PermItemIn) (operatorId tenantId : String),
      updateTablePermissions db tableId payload operatorId tenantId = .ok db' →
      ∀ row ∈ db'.tablePerms, row ∈ db.tablePerms ∨ (row.canWrite = true → row.canRead = true)) ∧
    (∀ (db db' : DB) (viewId : String) (payload : List PermItemIn) (operatorId tenantId : String),
      updateViewPermissions db viewId payload operatorId tenantId = .ok db' →
      ∀ row ∈ db'.viewPerms, row ∈ db.viewPerms ∨ (row.canWrite = true → row.canRead = true)) ∧
    (∀ (db db' : DB) (tableId operatorId tenantId : String),
      applyTablePermissionsByRoleDefaults db tableId operatorId tenantId = .ok db' →
      ∀ row ∈ db'.tablePerms, row ∈ db.tablePerms ∨ (row.canWrite = true → row.canRead = true)) ∧
    (∀ (db : DB) (tenantId userId : String) (role : TenantRole),
      (∀ row ∈ (grantPermissionsByRoleDefaults db tenantId userId role).tablePerms,
        row ∈ db.tablePerms ∨ (row.canWrite = true → row.canRead = true)) ∧
      (∀ row ∈ (grantPermissionsByRoleDefaults db tenantId userId role).viewPerms,
        row ∈ db.viewPerms ∨ (row.canWrite = true → row.canRead = true))) := by
  refine ⟨?_, ?_, ?_, ?_⟩
  · intro db db' tableId payload operatorId tenantId h row hrow
    unfold updateTablePermissions at h
    cases hg1 : ensureManagePermsAllowed db operatorId tenantId with
    | error e => simp [hg1] at h
    | ok u =>
      rw [hg1] at h
      cases hg2 : ensureTableExists db tableId tenantId with
      | error e => simp [hg2] at h
      | ok t =>
        rw [hg2] at h
        by_cases hu : (payload.any
            (fun item => (membershipRoleIn db tenantId item.userId).isNone)) = true
        · simp [hu] at h
        · simp [hu] at h
          rw [← h] at hrow
          rcases List.mem_append.mp hrow with h1 | h2
          · exact mem_tablePermSweep_cases db tableId tenantId payload row h1
          · exact Or.inr (mem_tablePermAdds_flags db tableId tenantId payload row h2)
  · intro db db' viewId payload operatorId tenantId h row hrow
    unfold updateViewPermissions at h
    cases hg1 : ensureManagePermsAllowed db operatorId tenantId with
    | error e => simp [hg1] at h
    | ok u =>
      rw [hg1] at h
      cases hg2 : ensureViewExists db viewId tenantId with
      | error e => simp [hg2] at h
      | ok v =>
        rw [hg2] at h
        by_cases hu : (payload.any
            (fun item => (membershipRoleIn db tenantId item.userId).isNone)) = true
        · simp [hu] at h
        · simp [hu] at h
          rw [← h] at hrow
          rcases List.mem_append.mp hrow with h1 | h2
          · exact mem_viewPermSweep_cases db viewId tenantId payload row h1
          · exact Or.inr (mem_viewPermAdds_flags db viewId tenantId payload row h2)
  · intro db db' tableId operatorId tenantId h row hrow
    unfold applyTablePermissionsByRoleDefaults at h
    cases hg1 : ensureManagePermsAllowed db operatorId tenantId with
    | error e => simp [hg1] at h
    | ok u =>
      rw [hg1] at h
      cases hg2 : ensureTableExists db tableId tenantId with
      | error e => simp [hg2] at h
      | ok t =>
        rw [hg2] at h
        simp at h
        rw [← h] at hrow
        rcases List.mem_append.mp hrow with h1 | h2
        · have := mem_roleDefaultsSweep_cases (ensureBuiltinRoles db tenantId) tableId tenantId
            row h1
          simpa [ensureBuiltinRoles] using this
        · exact Or.inr (mem_roleDefaultsAdds_flags (ensureBuiltinRoles db tenantId)
            tableId tenantId row h2)
  · intro db tenantId userId role
    constructor
    · intro row hrow
      simp only [grantPermissionsByRoleDefaults] at hrow
      rcases List.mem_append.mp hrow with h1 | h2
      · rcases List.mem_map.mp h1 with ⟨orig, ho, heq⟩
        split at heq
        · cases heq
          right
          intro hw
          simp at hw
          simp [hw]
        · cases heq
          left
          exact ho
      · rcases List.mem_filterMap.mp h2 with ⟨tid, ht, heq⟩
        split at heq
        · cases heq
        · cases heq
          right
          intro hw
          simp at hw
          simp [hw]
    · intro row hrow
      simp only [grantPermissionsByRoleDefaults] at hrow
      rcases List.mem_append.mp hrow with h1 | h2
      · rcases List.mem_map.mp h1 with ⟨orig, ho, heq⟩
        split at heq
        · cases heq
          right
          intro hw
          simp at hw
          simp [hw]
        · cases heq
          left
          exact ho
      · rcases List.mem_filterMap.mp h2 with ⟨vid, hv, heq⟩
        split at heq
        · cases heq
        · cases heq
          right
          intro hw
          simp at hw
          simp [hw]

/-! ## Claim C3: bulk replace and the owner floor -/

/-- On success, the post-state table-permission rows are exactly the sweep of
the existing rows followed by the added rows. -/
lemma updateTablePermissions_ok_perms (db db' : DB) (tableId : String)
    (payload : List PermItemIn) (operatorId tenantId : String)
    (h : updateTablePermissions db tableId payload operatorId tenantId = .ok db') :
    db'.tablePerms =
      tablePermSweep db tableId tenantId payload ++ tablePermAdds db tableId tenantId payload := by
  unfold updateTablePermissions at h
  cases hg1 : ensureManagePermsAllowed db operatorId tenantId with
  | error e => simp [hg1] at h
  | ok u =>
    rw [hg1] at h
    cases hg2 : ensureTableExists db tableId tenantId with
    | error e => simp [hg2] at h
    | ok t =>
      rw [hg2] at h
      by_cases hu : (payload.any
          (fun item => (membershipRoleIn db tenantId item.userId).isNone)) = true
      · simp [hu] at h
      · simp [hu] at h
        rw [← h]

/-- On success, the post-state view-permission rows are the sweep followed by
the adds. -/
lemma updateViewPermissions_ok_perms (db db' : DB) (viewId : String)
    (payload : List PermItemIn) (operatorId tenantId : String)
    (h : updateViewPermissions db viewId payload operatorId tenantId = .ok db') :
    db'.viewPerms =
      viewPermSweep db viewId tenantId payload ++ viewPermAdds db viewId tenantId payload := by
  unfold updateViewPermissions at h
  cases hg1 : ensureManagePermsAllowed db operatorId tenantId with
  | error e => simp [hg1] at h
  | ok u =>
    rw [hg1] at h
    cases hg2 : ensureViewExists db viewId tenantId with
    | error e => simp [hg2] at h
    | ok v =>
      rw [hg2] at h
      by_cases hu : (payload.any
          (fun item => (membershipRoleIn db tenantId item.userId).isNone)) = true
      · simp [hu] at h
      · simp [hu] at h
        rw [← h]

/-- The item found for a user by the write loop targets that user. -/
lemma lastItemFor_userId (payload : List PermItemIn) (uid : String) (item : PermItemIn)
    (h : lastItemFor payload uid = some item) : item.userId = uid := by
  unfold lastItemFor at h
  have := List.find?_some h
  simpa using this

/-- The flags the replace computes for an owner's payload item. -/
lemma permItemFlags_owner (db : DB) (tenantId : String) (item : PermItemIn)
    (howner : membershipRoleIn db tenantId item.userId = some "owner") :
    permItemFlags db tenantId item = (true, item.canWrite) := by
  unfold permItemFlags
  rw [if_pos howner]
  cases item.canWrite <;> simp

/-- C3 (amended): the bulk replace never deletes an owner's row — an owner
omitted from the target set keeps a row reset to full read/write; but an owner
included in the target set is upserted with `can_read` forced true while
`can_write` follows the requested value (it is not forced back to true).
Stated for both the table and the view variants. -/
theorem c3_owner_floor_on_bulk_replace :
    (∀ (db db' : DB) (tableId : String) (payload : List PermItemIn)
        (operatorId tenantId : String) (row : TablePermission),
      updateTablePermissions db tableId payload operatorId tenantId = .ok db' →
      row ∈ db.tablePerms → row.tenantId = tenantId → row.tableId = tableId →
      membershipRoleIn db tenantId row.userId = some "owner" →
      (lastItemFor payload row.userId = none →
        { row with canRead := true, canWrite := true } ∈ db'.tablePerms) ∧
      (∀ item, lastItemFor payload row.userId = some item →
        { row with canRead := true, canWrite := item.canWrite } ∈ db'.tablePerms)) ∧
    (∀ (db db' : DB) (viewId : String) (payload : List PermItemIn)
        (operatorId tenantId : String) (row : ViewPermission),
      updateViewPermissions db viewId payload operatorId tenantId = .ok db' →
      row ∈ db.viewPerms → row.tenantId = tenantId → row.viewId = viewId →
      membershipRoleIn db tenantId row.userId = some "owner" →
      (lastItemFor payload row.userId = none →
        { row with canRead := true, canWrite := true } ∈ db'.viewPerms) ∧
      (∀ item, lastItemFor payload row.userId = some item →
        { row with canRead := true, canWrite := item.canWrite } ∈ db'.viewPerms)) := by
  constructor
  · intro db db' tableId payload operatorId tenantId row h hrow hT hTb howner
    rw [updateTablePermissions_ok_perms db db' tableId payload operatorId tenantId h]
    constructor
    · intro hnone
      apply List.mem_append_left
      unfold tablePermSweep
      apply List.mem_filterMap.mpr
      refine ⟨row, hrow, ?_⟩
      simp [hT, hTb, hnone, howner]
    · intro item hitem
      apply List.mem_append_left
      unfold tablePermSweep
      apply List.mem_filterMap.mpr
      refine ⟨row, hrow, ?_⟩
      have huid : item.userId = row.userId := lastItemFor_userId payload row.userId item hitem
      have hflags : permItemFlags db tenantId item = (true, item.canWrite) :=
        permItemFlags_owner db tenantId item (by rwa [huid])
      simp [hT, hTb, hitem, hflags]
  · intro db db' viewId payload operatorId tenantId row h hrow hT hV howner
    rw [updateViewPermissions_ok_perms db db' viewId payload operatorId tenantId h]
    constructor
    · intro hnone
      apply List.mem_append_left
      unfold viewPermSweep
      apply List.mem_filterMap.mpr
      refine ⟨row, hrow, ?_⟩
      simp [hT, hV, hnone, howner]
    · intro item hitem
      apply List.mem_append_left
      unfold viewPermSweep
      apply List.mem_filterMap.mpr
      refine ⟨row, hrow, ?_⟩
      have huid : item.userId = row.userId := lastItemFor_userId payload row.userId item hitem
      have hflags : permItemFlags db tenantId item = (true, item.canWrite) :=
        permItemFlags_owner db tenantId item (by rwa [huid])
      simp [hT, hV, hitem, hflags]

/-- A concrete store with an owner (`u1`, holding a full-access row) and a
plain member (`u2`), one table and one view. -/
def dbPerm : DB :=
  { memberships := [⟨"u1", "t1", "owner", "owner"⟩, ⟨"u2", "t1", "member", "member"⟩],
    tables := [⟨"tb1", "t1"⟩],
    views := [⟨"v1", "t1", "tb1"⟩],
    tablePerms := [{ tenantId := "t1", tableId := "tb1", userId := "u1",
                     canRead := true, canWrite := true }],
    viewPerms := [⟨"t1", "v1", "u1", true, true⟩] }

/-- The owner's full-access row on `tb1`. -/
def u1RowFull : TablePermission :=
  { tenantId := "t1", tableId := "tb1", userId := "u1", canRead := true, canWrite := true }

/-- The owner's row after being submitted with all-false flags. -/
def u1RowReadOnly : TablePermission :=
  { tenantId := "t1", tableId := "tb1", userId := "u1", canRead := true, canWrite := false }

/-- The row written for the member `u2`. -/
def u2RowFull : TablePermission :=
  { tenantId := "t1", tableId := "tb1", userId := "u2", canRead := true, canWrite := true }

/-- Post-state of the bulk replace on `dbPerm` granting `u2` write while
omitting the owner `u1`. -/
def dbPermUpdated : DB :=
  { dbPerm with tablePerms := [u1RowFull, u2RowFull] }

/-- Post-state of the bulk replace on `dbPerm` submitting the owner with
all-false flags. -/
def dbPermDowngraded : DB :=
  { dbPerm with tablePerms := [u1RowReadOnly] }

/-- C3 counterexample: the owner `u1` is included in the target set with
`canRead = canWrite = false`; the claim says the upserted row is forced to
full read/write, but the code persists `can_write = false` (only `can_read`
is forced true). -/
theorem c3_counterexample :
    membershipRoleIn dbPerm "t1" "u1" = some "owner" ∧
    updateTablePermissions dbPerm "tb1"
        [{ userId := "u1", canRead := false, canWrite := false }] "u1" "t1" =
      .ok dbPermDowngraded ∧
    u1RowReadOnly.canWrite = false :=
  ⟨rfl, rfl, rfl⟩

/-- C3 witness: both branches of the amended theorem at a concrete store —
the omitted owner's row is reset to full access, and the owner included with
all-false flags is persisted with `can_read = true`, `can_write = false`. -/
theorem c3_owner_floor_on_bulk_replace_witness :
    u1RowFull ∈ dbPermUpdated.tablePerms ∧ u1RowReadOnly ∈ dbPermDowngraded.tablePerms :=
  ⟨(c3_owner_floor_on_bulk_replace.1 dbPerm dbPermUpdated "tb1"
      [{ userId := "u2", canRead := false, canWrite := true }] "u1" "t1" u1RowFull
      (by rfl) (by simp [dbPerm, u1RowFull]) rfl rfl (by rfl)).1 (by rfl),
   (c3_owner_floor_on_bulk_replace.1 dbPerm dbPermDowngraded "tb1"
      [{ userId := "u1", canRead := false, canWrite := false }] "u1" "t1" u1RowFull
      (by rfl) (by simp [dbPerm, u1RowFull]) rfl rfl (by rfl)).2
      { userId := "u1", canRead := false, canWrite := false } (by rfl)⟩

/-- C10 witness: the first component of the theorem applied to the concrete
bulk replace on `dbPerm`, checking the newly written row for `u2`. -/
theorem c10_written_rows_write_implies_read_witness :
    u2RowFull ∈ dbPerm.tablePerms ∨
      (u2RowFull.canWrite = true → u2RowFull.canRead = true) :=
  c10_written_rows_write_implies_read.1 dbPerm dbPermUpdated "tb1"
    [{ userId := "u2", canRead := false, canWrite := true }] "u1" "t1" (by rfl)
    u2RowFull (by simp [dbPermUpdated])

/-! ## Claim C6: multi-key sort precedence -/

/-- `charsLt` is irreflexive. -/
lemma charsLt_irrefl : ∀ as, charsLt as as = false
  | [] => rfl
  | a :: as => by simp [charsLt, charsLt_irrefl as]

/-- `charsLt` is transitive. -/
lemma charsLt_trans : ∀ as bs cs, charsLt as bs = true → charsLt bs cs = true →
    charsLt as cs = true
  | [], [], _ => fun hab _ => by cases hab
  | [], _ :: _, [] => fun _ hbc => by cases hbc
  | [], _ :: _, _ :: _ => fun _ _ => rfl
  | _ :: _, [], _ => fun hab _ => by cases hab
  | _ :: _, _ :: _, [] => fun _ hbc => by cases hbc
  | a :: as, b :: bs, c :: cs => fun hab hbc => by
    simp only [charsLt] at hab hbc ⊢
    by_cases h1 : a < b
    · by_cases h2 : b < c
      · simp [lt_trans h1 h2]
      · by_cases h3 : c < b
        · simp [h2, h3] at hbc
        · have hbc' : b = c := le_antisymm (not_lt.mp h3) (not_lt.mp h2)
          subst hbc'
          simp [h1]
    · by_cases h1' : b < a
      · simp [h1, h1'] at hab
      · have hab' : a = b := le_antisymm (not_lt.mp h1') (not_lt.mp h1)
        subst hab'
        by_cases h2 : a < c
        · simp [h2]
        · by_cases h3 : c < a
          · simp [h2, h3] at hbc
          · simp [h1, h1'] at hab
            simp [h2, h3] at hbc ⊢
            exact charsLt_trans as bs cs hab hbc

/-- Mutually non-less character lists are equal. -/
lemma charsLt_connex : ∀ as bs, charsLt as bs = false → charsLt bs as = false → as = bs
  | [], [] => fun _ _ => rfl
  | [], _ :: _ => fun h _ => by cases h
  | _ :: _, [] => fun _ h => by cases h
  | a :: as, b :: bs => fun h1 h2 => by
    simp only [charsLt] at h1 h2
    by_cases hab : a < b
    · simp [hab] at h1
    · by_cases hba : b < a
      · simp [hba, hab] at h2
      · have : a = b := le_antisymm (not_lt.mp hba) (not_lt.mp hab)
        subst this
        simp [hab, hba] at h1 h2
        rw [charsLt_connex as bs h1 h2]

/-- `strLeB` is reflexive. -/
lemma strLeB_refl (s : String) : strLeB s s = true := by
  simp [strLeB, charsLt_irrefl]

/-- `strLeB` is total. -/
lemma strLeB_total (a b : String) : strLeB a b = true ∨ strLeB b a = true := by
  unfold strLeB
  cases h : charsLt b.data a.data with
  | false => left; rfl
  | true =>
    right
    cases hc : charsLt a.data b.data with
    | false => rfl
    | true =>
      exfalso
      have := charsLt_trans _ _ _ h hc
      rw [charsLt_irrefl] at this
      exact Bool.false_ne_true this

/-- `strLeB` is transitive. -/
lemma strLeB_trans (a b c : String) (h1 : strLeB a b = true) (h2 : strLeB b c = true) :
    strLeB a c = true := by
  unfold strLeB at h1 h2 ⊢
  have hba : charsLt b.data a.data = false := by
    cases h : charsLt b.data a.data
    · rfl
    · rw [h] at h1; cases h1
  have hcb : charsLt c.data b.data = false := by
    cases h : charsLt c.data b.data
    · rfl
    · rw [h] at h2; cases h2
  cases hca : charsLt c.data a.data with
  | false => rfl
  | true =>
    exfalso
    cases hab : charsLt a.data b.data with
    | true =>
      have := charsLt_trans _ _ _ hca hab
      rw [hcb] at this
      exact Bool.false_ne_true this
    | false =>
      have heq : a.data = b.data := charsLt_connex _ _ hab hba
      rw [heq] at hca
      rw [hcb] at hca
      exact Bool.false_ne_true hca

/-- `SKey.leb` is reflexive. -/
lemma SKey.leb_refl (a : SKey) : a.leb a = true := by
  cases a <;> simp [SKey.leb, strLeB_refl]

/-- `SKey.leb` is total. -/
lemma SKey.leb_total (a b : SKey) : a.leb b = true ∨ b.leb a = true := by
  cases a <;> cases b <;> simp [SKey.leb, SKey.rank] <;>
    first
    | exact le_total _ _
    | exact strLeB_total _ _

/-- `SKey.leb` is transitive. -/
lemma SKey.leb_trans (a b c : SKey) (hab : a.leb b = true) (hbc : b.leb c = true) :
    a.leb c = true := by
  cases a <;> cases b <;> cases c <;> simp_all [SKey.leb, SKey.rank] <;>
    first
    | omega
    | exact le_trans hab hbc
    | exact strLeB_trans _ _ _ hab hbc

/-- `optKeyLe` is reflexive. -/
lemma optKeyLe_refl (x : Option SKey) : optKeyLe x x = true := by
  cases x with
  | none => rfl
  | some a => simpa [optKeyLe] using SKey.leb_refl a

/-- `optKeyLe` is total. -/
lemma optKeyLe_total (x y : Option SKey) : optKeyLe x y = true ∨ optKeyLe y x = true := by
  cases x <;> cases y <;> simp [optKeyLe]
  exact SKey.leb_total _ _

/-- `optKeyLe` is transitive. -/
lemma optKeyLe_trans (x y z : Option SKey) (hxy : optKeyLe x y = true)
    (hyz : optKeyLe y z = true) : optKeyLe x z = true := by
  cases x <;> cases y <;> cases z <;> simp_all [optKeyLe]
  exact SKey.leb_trans _ _ _ hxy hyz

/-- `bsort` output is pairwise ordered when the comparison is total and
transitive. -/
lemma bsort_pairwise_le {α : Type} (le : α → α → Bool)
    (htot : ∀ a b, le a b = true ∨ le b a = true)
    (htr : ∀ a b c, le a b = true → le b c = true → le a c = true) (l : List α) :
    (bsort le l).Pairwise (fun a b => le a b = true) := by
  letI : IsTotal α (bleRel le) := ⟨htot⟩
  letI : IsTrans α (bleRel le) := ⟨htr⟩
  exact List.sorted_insertionSort (bleRel le) l

/-- Insertion into a `Q`-pairwise list stays `Q`-pairwise, provided a swap can
only happen across a strict comparison (`hQ` makes swapped pairs vacuous). -/
lemma pairwise_orderedInsert_of {α : Type} (le : α → α → Bool) {Q : α → α → Prop}
    (hQ : ∀ x y, le x y = false → Q y x) (a : α) :
    ∀ l : List α, l.Pairwise Q → (∀ b ∈ l, Q a b) →
      (List.orderedInsert (bleRel le) a l).Pairwise Q
  | [], _, _ => by simp
  | b :: l, hp, ha => by
    by_cases h : bleRel le a b
    · rw [List.orderedInsert, if_pos h]
      exact List.Pairwise.cons ha hp
    · rw [List.orderedInsert, if_neg h]
      apply List.Pairwise.cons
      · intro c hc
        rcases (List.mem_orderedInsert (bleRel le)).mp hc with hca | hcl
        · subst hca
          exact hQ _ _ (by simpa [bleRel] using h)
        · exact (List.pairwise_cons.mp hp).1 c hcl
      · exact pairwise_orderedInsert_of le hQ a l (List.pairwise_cons.mp hp).2
          (fun c hc => ha c (List.mem_cons_of_mem _ hc))

/-- Stability of `bsort` for pairwise predicates: any `Q` holding along the
input order and vacuous across strict swaps survives the sort. -/
lemma bsort_pairwise_of {α : Type} (le : α → α → Bool) {Q : α → α → Prop}
    (hQ : ∀ x y, le x y = false → Q y x) :
    ∀ l : List α, l.Pairwise Q → (bsort le l).Pairwise Q
  | [], _ => by simp [bsort, List.insertionSort]
  | a :: l, hp => by
    rw [bsort, List.insertionSort]
    apply pairwise_orderedInsert_of le hQ
    · exact bsort_pairwise_of le hQ l (List.pairwise_cons.mp hp).2
    · intro b hb
      exact (List.pairwise_cons.mp hp).1 b ((List.mem_insertionSort _).mp hb)

/-- Membership is preserved by `bsort`. -/
lemma mem_bsort {α : Type} (le : α → α → Bool) (l : List α) (a : α) :
    a ∈ bsort le l ↔ a ∈ l :=
  List.mem_insertionSort _

/-- The normalized sort key of a record for a field id. -/
def sortKeyOf (fbi : String → Option Field) (fieldId : String) (r : QRecord) : Option SKey :=
  normalizeSortValue (fbi fieldId) (recordValueByField r fieldId)

/-- A `desc` sort pass over records with no null values for the key field is
exactly the stable sort by the flipped normalized-key comparison. -/
lemma sortPass_desc_eq (fbi : String → Option Field) (acc : List QRecord)
    (fieldId : String) (hfid : fieldId ≠ "")
    (hnn : ∀ r ∈ acc, recordValueByField r fieldId ≠ Value.null) :
    sortPass fbi acc ⟨.str fieldId, some (.str "desc")⟩ =
      bsort (fun a b => optKeyLe (sortKeyOf fbi fieldId b) (sortKeyOf fbi fieldId a)) acc := by
  unfold sortPass sortKeyOf
  have h1 : (fieldId == "") = false := by simpa using hfid
  have h2 : (strLower (pyStr (Value.str "desc")) == "desc") = true := by decide
  have h3 : acc.filter (fun r => !(recordValueByField r fieldId == Value.null)) = acc :=
    List.filter_eq_self.mpr (fun a ha => by simpa using hnn a ha)
  have h4 : acc.filter (fun r => recordValueByField r fieldId == Value.null) = [] := by
    rw [List.filter_eq_nil_iff]
    intro a ha
    simpa using hnn a ha
  simp only [h1, h2, h3, h4]
  simp

/-- An `asc` sort pass over records with no null values for the key field is
exactly the stable sort by the normalized-key comparison. -/
lemma sortPass_asc_eq (fbi : String → Option Field) (acc : List QRecord)
    (fieldId : String) (hfid : fieldId ≠ "")
    (hnn : ∀ r ∈ acc, recordValueByField r fieldId ≠ Value.null) :
    sortPass fbi acc ⟨.str fieldId, some (.str "asc")⟩ =
      bsort (fun a b => optKeyLe (sortKeyOf fbi fieldId a) (sortKeyOf fbi fieldId b)) acc := by
  unfold sortPass sortKeyOf
  have h1 : (fieldId == "") = false := by simpa using hfid
  have h2 : (strLower (pyStr (Value.str "asc")) == "desc") = false := by decide
  have h3 : acc.filter (fun r => !(recordValueByField r fieldId == Value.null)) = acc :=
    List.filter_eq_self.mpr (fun a ha => by simpa using hnn a ha)
  have h4 : acc.filter (fun r => recordValueByField r fieldId == Value.null) = [] := by
    rw [List.filter_eq_nil_iff]
    intro a ha
    simpa using hnn a ha
  simp only [h1, h2, h3, h4]
  simp

/-- C6: for sorts `[A asc, B desc]` over records that are non-null on both
keys (with same-kind keys per field, the inputs on which CPython's comparisons
are defined), the engine's output is primarily ordered ascending by A's
normalized key, and any two records with equal A keys appear in descending
order of B's normalized key — for every input ordering, since the statement
quantifies over the record list. -/
theorem c6_sort_precedence (records : List QRecord) (fbi : String → Option Field)
    (aId bId : String) (haId : aId ≠ "") (hbId : bId ≠ "")
    (hnnA : ∀ r ∈ records, recordValueByField r aId ≠ Value.null)
    (hnnB : ∀ r ∈ records, recordValueByField r bId ≠ Value.null)
    (hhomA : ∃ n, ∀ r ∈ records, (sortKeyOf fbi aId r).map SKey.rank = some n)
    (hhomB : ∃ n, ∀ r ∈ records, (sortKeyOf fbi bId r).map SKey.rank = some n) :
    (applyFiltersAndSorts records fbi []
        [⟨.str aId, some (.str "asc")⟩, ⟨.str bId, some (.str "desc")⟩] "and").Pairwise
      (fun r s => optKeyLe (sortKeyOf fbi aId r) (sortKeyOf fbi aId s) = true) ∧
    (applyFiltersAndSorts records fbi []
        [⟨.str aId, some (.str "asc")⟩, ⟨.str bId, some (.str "desc")⟩] "and").Pairwise
      (fun r s => sortKeyOf fbi aId r = sortKeyOf fbi aId s →
        optKeyLe (sortKeyOf fbi bId s) (sortKeyOf fbi bId r) = true) := by
  have happ : applyFiltersAndSorts records fbi []
      [⟨.str aId, some (.str "asc")⟩, ⟨.str bId, some (.str "desc")⟩] "and" =
      sortPass fbi (sortPass fbi records ⟨.str bId, some (.str "desc")⟩)
        ⟨.str aId, some (.str "asc")⟩ := by
    unfold applyFiltersAndSorts
    simp
  have hl1 : sortPass fbi records ⟨.str bId, some (.str "desc")⟩ =
      bsort (fun a b => optKeyLe (sortKeyOf fbi bId b) (sortKeyOf fbi bId a)) records :=
    sortPass_desc_eq fbi records bId hbId hnnB
  have hnnA1 : ∀ r ∈ bsort (fun a b => optKeyLe (sortKeyOf fbi bId b) (sortKeyOf fbi bId a))
      records, recordValueByField r aId ≠ Value.null := by
    intro r hr
    exact hnnA r ((mem_bsort _ _ _).mp hr)
  have hl2 : sortPass fbi
      (bsort (fun a b => optKeyLe (sortKeyOf fbi bId b) (sortKeyOf fbi bId a)) records)
      ⟨.str aId, some (.str "asc")⟩ =
      bsort (fun a b => optKeyLe (sortKeyOf fbi aId a) (sortKeyOf fbi aId b))
        (bsort (fun a b => optKeyLe (sortKeyOf fbi bId b) (sortKeyOf fbi bId a)) records) :=
    sortPass_asc_eq fbi _ aId haId hnnA1
  rw [happ, hl1, hl2]
  constructor
  · exact bsort_pairwise_le _
      (fun a b => optKeyLe_total (sortKeyOf fbi aId a) (sortKeyOf fbi aId b))
      (fun a b c hab hbc => optKeyLe_trans _ _ _ hab hbc) _
  · have hPB : (bsort (fun a b => optKeyLe (sortKeyOf fbi bId b) (sortKeyOf fbi bId a))
        records).Pairwise
        (fun a b => optKeyLe (sortKeyOf fbi bId b) (sortKeyOf fbi bId a) = true) :=
      bsort_pairwise_le _
        (fun a b => (optKeyLe_total (sortKeyOf fbi bId a) (sortKeyOf fbi bId b)).symm)
        (fun a b c hab hbc => optKeyLe_trans _ _ _ hbc hab) records
    have hQ1 : (bsort (fun a b => optKeyLe (sortKeyOf fbi bId b) (sortKeyOf fbi bId a))
        records).Pairwise
        (fun r s => sortKeyOf fbi aId r = sortKeyOf fbi aId s →
          optKeyLe (sortKeyOf fbi bId s) (sortKeyOf fbi bId r) = true) :=
      hPB.imp (fun h => fun _ => h)
    apply bsort_pairwise_of
    · intro x y hxy heq
      exfalso
      rw [heq, optKeyLe_refl] at hxy
      exact Bool.true_eq_false ▸ hxy
    · exact hQ1

/-- Field metadata for the C6 witness: two number fields `a` and `b`. -/
def fieldsC6 : String → Option Field := fun fid =>
  if fid == "a" then some ⟨"a", "number"⟩
  else if fid == "b" then some ⟨"b", "number"⟩
  else none

/-- Records for the C6 witness, with a tie on `a` between r1 and r3. -/
def recsC6 : List QRecord :=
  [⟨"r1", [("a", .num 1), ("b", .num 1)]⟩,
   ⟨"r2", [("a", .num 0), ("b", .num 5)]⟩,
   ⟨"r3", [("a", .num 1), ("b", .num 2)]⟩]

/-- C6 witness: the theorem applied at the concrete records. -/
theorem c6_sort_precedence_witness :
    (applyFiltersAndSorts recsC6 fieldsC6 []
        [⟨.str "a", some (.str "asc")⟩, ⟨.str "b", some (.str "desc")⟩] "and").Pairwise
      (fun r s => optKeyLe (sortKeyOf fieldsC6 "a" r) (sortKeyOf fieldsC6 "a" s) = true) ∧
    (applyFiltersAndSorts recsC6 fieldsC6 []
        [⟨.str "a", some (.str "asc")⟩, ⟨.str "b", some (.str "desc")⟩] "and").Pairwise
      (fun r s => sortKeyOf fieldsC6 "a" r = sortKeyOf fieldsC6 "a" s →
        optKeyLe (sortKeyOf fieldsC6 "b" s) (sortKeyOf fieldsC6 "b" r) = true) :=
  c6_sort_precedence recsC6 fieldsC6 "a" "b" (by decide) (by decide)
    (by decide) (by decide) ⟨0, by decide⟩ ⟨0, by decide⟩

/-! ## Claim C7: filter operator semantics -/

/-- C7 counterexample: for the number value `0` and expected string `"0"`,
`contains` does not match (the code coerces falsy values to `""` via
`value or ""`), although the lower-cased stringification of `0` does contain
the lower-cased expected value — so "matches iff lower-cased expected is a
substring of the lower-cased record value" fails at this input. -/
theorem c7_counterexample :
    matchFilter none (.num 0)
      { fieldId := .str "f", op := some (.str "contains"), value := .str "0" } = false ∧
    strInfixOf (strLower (pyStr (.str "0"))) (strLower (pyStr (.num 0))) = true := by
  constructor <;> decide

/-- C7 (amended): `contains` is the case-insensitive substring test on the
stringified operands after coercing falsy values (null, 0, False, empty
containers) to the empty string — so for truthy operands it is exactly the
lower-cased substring relation; `in` with a non-list expected value matches
nothing; `nin` with a non-list expected value matches everything. -/
theorem c7_filter_operator_semantics :
    (∀ (field : Option Field) (v e : Value), pyTruthy v = true → pyTruthy e = true →
      matchFilter field v { fieldId := .str "f", op := some (.str "contains"), value := e } =
        strInfixOf (strLower (pyStr e)) (strLower (pyStr v))) ∧
    (∀ (field : Option Field) (v e : Value), (∀ l, e ≠ .list l) →
      matchFilter field v { fieldId := .str "f", op := some (.str "in"), value := e } = false) ∧
    (∀ (field : Option Field) (v e : Value), (∀ l, e ≠ .list l) →
      matchFilter field v { fieldId := .str "f", op := some (.str "nin"), value := e } = true) := by
  refine ⟨?_, ?_, ?_⟩
  · intro field v e hv he
    have hop : strLower (pyStr (Value.str "contains")) = "contains" := by decide
    unfold matchFilter
    rw [hop]
    simp [containsMatch, pyOrEmptyStr, hv, he]
  · intro field v e he
    cases e with
    | list l => exact absurd rfl (he l)
    | null => rfl
    | bool b => rfl
    | num q => rfl
    | str s => rfl
  · intro field v e he
    cases e with
    | list l => exact absurd rfl (he l)
    | null => rfl
    | bool b => rfl
    | num q => rfl
    | str s => rfl

/-- C7 witness: all three amended parts at concrete inputs. -/
theorem c7_filter_operator_semantics_witness :
    (matchFilter none (.str "Hello")
      { fieldId := .str "f", op := some (.str "contains"), value := .str "ELL" } =
      strInfixOf (strLower (pyStr (.str "ELL"))) (strLower (pyStr (.str "Hello")))) ∧
    (matchFilter none (.num 3)
      { fieldId := .str "f", op := some (.str "in"), value := .str "x" } = false) ∧
    (matchFilter none (.num 3)
      { fieldId := .str "f", op := some (.str "nin"), value := .str "x" } = true) :=
  ⟨c7_filter_operator_semantics.1 none (.str "Hello") (.str "ELL") (by decide) (by decide),
   c7_filter_operator_semantics.2.1 none (.num 3) (.str "x") (fun l h => by cases h),
   c7_filter_operator_semantics.2.2 none (.num 3) (.str "x") (fun l h => by cases h)⟩

/-! ## Claim C9: metric `avg` over an empty numeric set -/

/-- C9: a `metric` widget with aggregation `avg` whose table is bound and
whose first field yields no numeric values after `_to_float` coercion returns
the data value 0 (labelled 平均值), not an error. -/
theorem c9_metric_avg_empty_is_zero (db : DB) (widget : Widget) (tableId fieldId : String)
    (rest : List String)
    (htype : widget.type = "metric")
    (htable : widget.tableId = some tableId) (htne : tableId ≠ "")
    (hagg : widget.aggregation = "avg")
    (hfields : widget.fieldIds = fieldId :: rest)
    (hempty : (metricValues db widget.tenantId tableId fieldId).filterMap toFloat? = []) :
    aggregateWidgetData db widget =
      { type := "metric", data := some (.metric 0 "平均值"), error := none } := by
  unfold aggregateWidgetData
  simp [htype, htable, htne, hagg, hfields, hempty, round2, roundHalfEven]

/-- Store for the C9 witness: one record whose only stored value for `f1` is
the non-numeric string `"abc"`. -/
def dbC9 : DB :=
  { records := [⟨"r1", "t1", "tb1", 0⟩],
    recordValues := [⟨"r1", "f1", .str "abc"⟩] }

/-- Widget for the C9 witness. -/
def widgetC9 : Widget :=
  { type := "metric", tenantId := "t1", tableId := some "tb1",
    fieldIds := ["f1"], aggregation := "avg" }

/-- C9 witness: the theorem applied at the concrete store. -/
theorem c9_metric_avg_empty_is_zero_witness :
    aggregateWidgetData dbC9 widgetC9 =
      { type := "metric", data := some (.metric 0 "平均值"), error := none } :=
  c9_metric_avg_empty_is_zero dbC9 widgetC9 "tb1" "f1" [] rfl rfl (by decide) rfl rfl
    (by decide)

/-! ## Claim C8: group-by bucketing and the `(空)` label -/

/-- The chart entries of a widget response (empty for non-chart payloads). -/
def chartEntriesOf (r : AggResult) : List (String × ℚ) :=
  match r.data with
  | some (.chart es) => es
  | _ => []

/-- Store for the C8 counterexample: one record in the table with no stored
value row at all for the group field `g1` (absent key = null). -/
def dbC8 : DB := { records := [⟨"r1", "t1", "tb1", 0⟩] }

/-- Widget for the C8 counterexample. -/
def widgetC8 : Widget :=
  { type := "bar", tenantId := "t1", tableId := some "tb1",
    aggregation := "count", groupFieldId := some "g1" }

/-- C8 counterexample: the table has a record whose group-field key is absent
(no stored row), yet the aggregation returns zero buckets — the record is not
counted under `(空)`, because the group query is an inner join on stored value
rows. -/
theorem c8_counterexample :
    (⟨"r1", "t1", "tb1", 0⟩ : RecordRow) ∈ dbC8.records ∧
    (∀ rv ∈ dbC8.recordValues, ¬(rv.recordId = "r1" ∧ rv.fieldId = "g1")) ∧
    aggregateWidgetData dbC8 widgetC8 =
      { type := "bar", data := some (.chart []), error := none } := by
  refine ⟨by decide, by decide, by decide⟩

/-- Keys of the bucket map after a bump, when the key already has a bucket. -/
lemma bumpGroup_keys_eq (m : List (String × List ℚ)) (key : String) (v? : Option ℚ)
    (h : (m.any (fun p => p.1 == key)) = true) :
    (bumpGroup m key v?).map Prod.fst = m.map Prod.fst := by
  unfold bumpGroup
  rw [if_pos h]
  rw [List.map_map]
  apply List.map_congr_left
  intro a _
  dsimp [Function.comp]
  split <;> rfl

/-- Keys of the bucket map after a bump on a fresh key. -/
lemma bumpGroup_keys_append (m : List (String × List ℚ)) (key : String) (v? : Option ℚ)
    (h : ¬ (m.any (fun p => p.1 == key)) = true) :
    (bumpGroup m key v?).map Prod.fst = m.map Prod.fst ++ [key] := by
  unfold bumpGroup
  rw [if_neg h]
  simp

/-- After a bump the bumped key has a bucket. -/
lemma bumpGroup_key_mem (m : List (String × List ℚ)) (key : String) (v? : Option ℚ) :
    key ∈ (bumpGroup m key v?).map Prod.fst := by
  by_cases h : (m.any (fun p => p.1 == key)) = true
  · rw [bumpGroup_keys_eq m key v? h]
    rcases List.any_eq_true.mp h with ⟨p, hp, hpk⟩
    exact List.mem_map.mpr ⟨p, hp, beq_iff_eq.mp hpk⟩
  · rw [bumpGroup_keys_append m key v? h]
    simp

/-- A bump never removes a bucket. -/
lemma bumpGroup_keys_mono (m : List (String × List ℚ)) (key : String) (v? : Option ℚ)
    (k : String) (hk : k ∈ m.map Prod.fst) : k ∈ (bumpGroup m key v?).map Prod.fst := by
  by_cases h : (m.any (fun p => p.1 == key)) = true
  · rw [bumpGroup_keys_eq m key v? h]
    exact hk
  · rw [bumpGroup_keys_append m key v? h]
    exact List.mem_append_left _ hk

/-- Buckets survive the whole fold. -/
lemma foldl_bump_keys_mono (lookup : String → Option ℚ) (uvf : Bool) :
    ∀ (rows : List (String × Value)) (init : List (String × List ℚ)) (k : String),
      k ∈ init.map Prod.fst →
      k ∈ (rows.foldl (fun m rv =>
        bumpGroup m (groupKeyOf rv.2) (if uvf then lookup rv.1 else some 1)) init).map Prod.fst
  | [], _, _, hk => hk
  | rv :: rest, init, k, hk =>
    foldl_bump_keys_mono lookup uvf rest _ k
      (bumpGroup_keys_mono init (groupKeyOf rv.2) _ k hk)

/-- Every group row's key owns a bucket in the built value map. -/
lemma buildValueMap_key_mem (lookup : String → Option ℚ) (uvf : Bool) :
    ∀ (rows : List (String × Value)) (init : List (String × List ℚ)) (rid : String) (v : Value),
      (rid, v) ∈ rows →
      groupKeyOf v ∈ (rows.foldl (fun m rv =>
        bumpGroup m (groupKeyOf rv.2) (if uvf then lookup rv.1 else some 1)) init).map Prod.fst
  | [], _, _, _, hmem => absurd hmem (List.not_mem_nil _)
  | rv :: rest, init, rid, v, hmem => by
    rcases List.mem_cons.mp hmem with heq | htail
    · subst heq
      exact foldl_bump_keys_mono lookup uvf rest _ _
        (bumpGroup_key_mem init (groupKeyOf v) _)
    · exact buildValueMap_key_mem lookup uvf rest _ rid v htail

/-- `aggEntries` keeps the bucket keys. -/
lemma aggEntries_keys (valueMap : List (String × List ℚ)) (aggregation : String) :
    (aggEntries valueMap aggregation).map Prod.fst = valueMap.map Prod.fst := by
  unfold aggEntries
  rw [List.map_map]
  apply List.map_congr_left
  intro a _
  rfl

/-- The aggregation name resolved by the `or`-chain when no override is
passed. -/
def resolvedAgg (widget : Widget) : String :=
  if widget.aggregation == "" then "count" else widget.aggregation

/-- The metric field consulted by the group-by branch (`value_field_id`). -/
def chartValueFieldId (widget : Widget) : Option String :=
  if (resolvedAgg widget == "sum" || resolvedAgg widget == "avg")
      && !widget.fieldIds.isEmpty then
    widget.fieldIds.head?
  else none

/-- Whether the group-by branch joins a numeric value field (`if value_field_id:`). -/
def chartUseValueField (widget : Widget) : Bool :=
  match chartValueFieldId widget with
  | some s => !(s == "")
  | none => false

/-- For a chart widget with a bound table and group field (and no overrides),
the response is the chart of the bucketed group rows. -/
lemma aggregateWidgetData_chart_shape (db : DB) (widget : Widget) (tableId gfid : String)
    (htype : widget.type = "bar" ∨ widget.type = "pie" ∨ widget.type = "line")
    (htable : widget.tableId = some tableId) (htne : tableId ≠ "")
    (hgf : widget.groupFieldId = some gfid) (hgne : gfid ≠ "") :
    ∃ (lookup : String → Option ℚ) (uvf : Bool) (agg : String),
      aggregateWidgetData db widget =
        { type := widget.type,
          data := some (.chart (bsort (fun a b => strLeB a.1 b.1)
            (aggEntries
              (buildValueMap (groupRows db widget.tenantId tableId gfid) lookup uvf)
              agg))),
          error := none } := by
  refine ⟨fun rid => numericByRecord db ((chartValueFieldId widget).getD "") rid,
    chartUseValueField widget, resolvedAgg widget, ?_⟩
  unfold aggregateWidgetData
  rcases htype with h | h | h <;>
    simp [h, htable, htne, hgf, hgne, resolvedAgg, chartValueFieldId, chartUseValueField]

/-- C8 (amended): bucketing covers exactly the records that have a stored
value row for the group field.  (a) Every group row whose stored value is null
or the empty string yields the `(空)` bucket.  (b) When no record of the table
has a stored row for the group field, the chart is empty — records with an
absent key are excluded by the inner join, not labelled `(空)`. -/
theorem c8_group_bucket_labels :
    (∀ (db : DB) (widget : Widget) (tableId gfid rid : String) (v : Value),
      (widget.type = "bar" ∨ widget.type = "pie" ∨ widget.type = "line") →
      widget.tableId = some tableId → tableId ≠ "" →
      widget.groupFieldId = some gfid → gfid ≠ "" →
      (rid, v) ∈ groupRows db widget.tenantId tableId gfid →
      (pyEq v .null || pyEq v (.str "")) = true →
      "(空)" ∈ (chartEntriesOf (aggregateWidgetData db widget)).map Prod.fst) ∧
    (∀ (db : DB) (widget : Widget) (tableId gfid : String),
      (widget.type = "bar" ∨ widget.type = "pie" ∨ widget.type = "line") →
      widget.tableId = some tableId → tableId ≠ "" →
      widget.groupFieldId = some gfid → gfid ≠ "" →
      groupRows db widget.tenantId tableId gfid = [] →
      aggregateWidgetData db widget =
        { type := widget.type, data := some (.chart []), error := none }) := by
  constructor
  · intro db widget tableId gfid rid v htype htable htne hgf hgne hmem hv
    rcases aggregateWidgetData_chart_shape db widget tableId gfid htype htable htne hgf hgne
      with ⟨lookup, uvf, agg, heq⟩
    rw [heq]
    show "(空)" ∈ (bsort (fun a b => strLeB a.1 b.1) _).map Prod.fst
    have hkey : groupKeyOf v = "(空)" := by
      unfold groupKeyOf
      rw [if_pos hv]
    have hmem1 : "(空)" ∈ (buildValueMap (groupRows db widget.tenantId tableId gfid)
        lookup uvf).map Prod.fst := by
      rw [← hkey]
      exact buildValueMap_key_mem lookup uvf _ [] rid v hmem
    rw [← aggEntries_keys _ agg] at hmem1
    rcases List.mem_map.mp hmem1 with ⟨p, hp, hpk⟩
    exact List.mem_map.mpr ⟨p, (mem_bsort _ _ _).mpr hp, hpk⟩
  · intro db widget tableId gfid htype htable htne hgf hgne hrows
    rcases aggregateWidgetData_chart_shape db widget tableId gfid htype htable htne hgf hgne
      with ⟨lookup, uvf, agg, heq⟩
    rw [heq, hrows]
    rfl

/-- Store for the C8 witness: one record with an explicit stored null for the
group field. -/
def dbC8null : DB :=
  { records := [⟨"r1", "t1", "tb1", 0⟩],
    recordValues := [⟨"r1", "g1", .null⟩] }

/-- C8 witness: both amended branches at concrete stores — the explicit null
produces the `(空)` bucket, and the store with no value rows produces the
empty chart. -/
theorem c8_group_bucket_labels_witness :
    "(空)" ∈ (chartEntriesOf (aggregateWidgetData dbC8null widgetC8)).map Prod.fst ∧
    aggregateWidgetData dbC8 widgetC8 =
      { type := widgetC8.type, data := some (.chart []), error := none } :=
  ⟨c8_group_bucket_labels.1 dbC8null widgetC8 "tb1" "g1" "r1" .null
      (Or.inl rfl) rfl (by decide) rfl (by decide) (by decide) (by decide),
   c8_group_bucket_labels.2 dbC8 widgetC8 "tb1" "g1"
      (Or.inl rfl) rfl (by decide) rfl (by decide) (by decide)⟩

end Autotable
